import Mathlib

/-!
Verification of the meditation-pipeline specification against a shallow
embedding of the repository's source code.

Strings manipulated by the JavaScript/TypeScript source are embedded as
`List Char`; the regex operations the source applies are embedded as
explicit character-list scanners that realise exactly the matching
semantics of the concrete patterns appearing in the source
(`/<\/?speak>/g`, `/<prosody[^>]*rate\s*=/i`, `/<prosody[^>]*>/`,
`/<break[^>]*\/>/g`).  External services (the speech engine, the object
store, the session table, ffmpeg, `Math.random`, `JSON.parse`) are passed
in as explicit parameters, so every handler is a pure function of its
environment.
-/

/-- Whitespace as tested by JavaScript `trim` / `\s` on the ASCII range
(space, tab, newline, carriage return). -/
def jsWhitespace (c : Char) : Bool :=
  c = ' ' || c = '\t' || c = '\n' || c = '\r'

/-- Embedding of JavaScript `String.prototype.trim`: drop whitespace from
both ends. -/
def jsTrim (s : List Char) : List Char :=
  ((s.dropWhile jsWhitespace).reverse.dropWhile jsWhitespace).reverse

/-- Embedding of `ssml.replace(/<\/?speak>/g, '')` from `chunkSSMLText`:
remove every occurrence of the literal substrings `<speak>` and
`</speak>`, scanning left to right. -/
def removeSpeakTags : List Char → List Char
  | [] => []
  | c :: rest =>
    if ("<speak>".toList).isPrefixOf (c :: rest) then
      removeSpeakTags (rest.drop 6)
    else if ("</speak>".toList).isPrefixOf (c :: rest) then
      removeSpeakTags (rest.drop 7)
    else
      c :: removeSpeakTags rest
termination_by l => l.length
decreasing_by
  all_goals (simp only [List.length_drop, List.length_cons]; omega)

/-- Case-insensitive character comparison, used for the `/i` regex flag. -/
def ciEqChar (a b : Char) : Bool := a.toLower == b.toLower

/-- Case-insensitive prefix test, used for the `/i` regex flag. -/
def ciPrefixOf : List Char → List Char → Bool
  | [], _ => true
  | _ :: _, [] => false
  | a :: as, b :: bs => ciEqChar a b && ciPrefixOf as bs

/-- Scanner for the `[^>]*rate\s*=` part of the test
`/<prosody[^>]*rate\s*=/i`: walk forward from just after `<prosody`,
succeeding at the first position where `rate` (case-insensitively)
followed by optional whitespace and `=` begins, and failing as soon as a
`>` is reached (the `[^>]*` bound). -/
def rateSearch : List Char → Bool
  | [] => false
  | c :: rest =>
    if ciPrefixOf ("rate".toList) (c :: rest)
        && (((c :: rest).drop 4).dropWhile jsWhitespace).head? == some '=' then
      true
    else if c = '>' then
      false
    else
      rateSearch rest

/-- Embedding of `/<prosody[^>]*rate\s*=/i.test(s)`: does the pattern
match anywhere in the string? -/
def hasRateCtrl : List Char → Bool
  | [] => false
  | c :: rest =>
    if ciPrefixOf ("<prosody".toList) (c :: rest) && rateSearch ((c :: rest).drop 8) then
      true
    else
      hasRateCtrl rest

/-- Collect characters up to and including the first `>`; `none` when no
`>` occurs.  Realises the greedy `[^>]*>` tail of `/<prosody[^>]*>/`. -/
def takeToGt : List Char → Option (List Char)
  | [] => none
  | c :: rest => if c = '>' then some ['>'] else (takeToGt rest).map (c :: ·)

/-- Embedding of `s.match(/<prosody[^>]*>/)`: the leftmost match of a
literal `<prosody` followed by non-`>` characters and a closing `>`. -/
def findProsodyTag : List Char → Option (List Char)
  | [] => none
  | c :: rest =>
    if ("<prosody".toList).isPrefixOf (c :: rest) then
      match takeToGt ((c :: rest).drop 8) with
      | some tag => some ("<prosody".toList ++ tag)
      | none => findProsodyTag rest
    else
      findProsodyTag rest

/-- Scanner for the `[^>]*\/>` tail of `/<break[^>]*\/>/`: walk to the
first `>`; the pattern matches exactly when the character immediately
before that `>` is `/`.  Returns the scanned characters (up to and
including the `>`) together with the remainder of the input. -/
def brkScan : List Char → Char → Option (List Char × List Char)
  | [], _ => none
  | c :: rest, prev =>
    if c = '>' then
      if prev = '/' then some ([c], rest) else none
    else
      (brkScan rest c).map (fun p => (c :: p.1, p.2))

/-- Try to match `/<break[^>]*\/>/` at the head of the input; on success
return the matched text and the remainder. -/
def breakMatchAt (l : List Char) : Option (List Char × List Char) :=
  if ("<break".toList).isPrefixOf l then
    match brkScan (l.drop 6) 'k' with
    | some p => some ("<break".toList ++ p.1, p.2)
    | none => none
  else
    none

theorem isPrefixOf_length_le {A : Type} [BEq A] :
    ∀ (p l : List A), p.isPrefixOf l = true → p.length ≤ l.length
  | [], l, _ => by simp
  | a :: as, [], h => by simp [List.isPrefixOf] at h
  | a :: as, b :: bs, h => by
    simp only [List.isPrefixOf, Bool.and_eq_true] at h
    have := isPrefixOf_length_le as bs h.2
    simp only [List.length_cons]
    omega

theorem brkScan_rem_length :
    ∀ (l : List Char) (prev : Char) (p : List Char × List Char),
      brkScan l prev = some p → p.2.length < l.length := by
  intro l
  induction l with
  | nil => intro prev p h; simp [brkScan] at h
  | cons c rest ih =>
    intro prev p h
    simp only [brkScan] at h
    split at h
    · split at h
      · cases h; simp
      · cases h
    · rcases Option.map_eq_some'.mp h with ⟨q, hq, hpq⟩
      have := ih c q hq
      subst hpq
      simp only [List.length_cons]
      omega

theorem breakMatchAt_rem_length (l : List Char) (p : List Char × List Char)
    (h : breakMatchAt l = some p) : p.2.length < l.length := by
  unfold breakMatchAt at h
  split at h
  · rename_i hpre
    split at h
    · rename_i q hq
      cases h
      have h1 := brkScan_rem_length _ _ _ hq
      have h3 : 6 ≤ l.length := by
        have := isPrefixOf_length_le _ _ hpre
        simpa using this
      simp only [List.length_drop] at h1
      show q.2.length < l.length
      omega
    · cases h
  · cases h

/-- Embedding of `wrappedContent.split(/<break[^>]*\/>/g)` together with
`wrappedContent.match(/<break[^>]*\/>/g)`: the list of parts between
non-overlapping leftmost matches, and the list of matches themselves, in
order. -/
def splitBreaks : List Char → List (List Char) × List (List Char)
  | [] => ([[]], [])
  | c :: rest =>
    match h : breakMatchAt (c :: rest) with
    | some p =>
      let r := splitBreaks p.2
      ([] :: r.1, p.1 :: r.2)
    | none =>
      let r := splitBreaks rest
      (r.1.modifyHead (c :: ·), r.2)
termination_by l => l.length
decreasing_by
  · exact breakMatchAt_rem_length _ _ h
  · simp

/-- The greedy accumulation loop of `chunkSSMLText` (lines 61–88 of the
source): iterate over the split parts, pulling one pause marker per step
(the `breakIndex` mechanics: the next break is consumed only when it is
non-empty), emitting a wrapped chunk whenever the candidate would exceed
`safeMaxLength` and the running chunk is non-blank.  Returns the emitted
chunks and the final running accumulation. -/
def chunkLoop (openingTags : List (List Char)) (safeMaxLength : Int) :
    List (List Char) → List (List Char) → List Char →
    List (List Char) × List Char
  | [], _, current => ([], current)
  | part :: parts, breaks, current =>
    let nextBreak := breaks.headD []
    let candidate := current ++ part ++ nextBreak
    let breaks' := if nextBreak ≠ [] then breaks.tail else breaks
    if (candidate.length : Int) > safeMaxLength ∧ jsTrim current ≠ [] then
      let chunkContent :=
        jsTrim current ++ (if openingTags ≠ [] then "</prosody>".toList else [])
      let newCurrent :=
        (if openingTags ≠ [] then openingTags.flatten ++ [' '] else [])
          ++ part ++ nextBreak
      let r := chunkLoop openingTags safeMaxLength parts breaks' newCurrent
      (("<speak>".toList ++ chunkContent ++ "</speak>".toList) :: r.1, r.2)
    else
      chunkLoop openingTags safeMaxLength parts breaks' candidate

/-- Embedding of `chunkSSMLText` (text-to-speech lambda): split a long
SSML string into engine-sized chunks.  `maxLength` defaults to 3000 in
the source. -/
def chunkSSMLText (ssml : List Char) (maxLength : Nat) : List (List Char) :=
  let cleanedSSML := jsTrim (removeSpeakTags ssml)
  let hasRateControl := hasRateCtrl cleanedSSML
  let speakWrapperLength : Int := ("<speak></speak>".toList).length
  let prosodyWrapperLength : Int :=
    if hasRateControl then 0 else ("<prosody rate=\"slow\"></prosody>".toList).length
  let safeMaxLength : Int := (maxLength : Int) - speakWrapperLength - prosodyWrapperLength
  let wrappedContent :=
    if hasRateControl then cleanedSSML
    else "<prosody rate=\"slow\">".toList ++ cleanedSSML ++ "</prosody>".toList
  if (wrappedContent.length : Int) ≤ safeMaxLength then
    ["<speak>".toList ++ wrappedContent ++ "</speak>".toList]
  else
    let openingTags :=
      match findProsodyTag wrappedContent with
      | some tag => [tag]
      | none => []
    let pb := splitBreaks wrappedContent
    let r := chunkLoop openingTags safeMaxLength pb.1 pb.2 []
    if jsTrim r.2 ≠ [] then
      r.1 ++ ["<speak>".toList ++ jsTrim r.2 ++ "</speak>".toList]
    else
      r.1

def brkFree : List Char → Bool
  | [] => true
  | c :: r => (breakMatchAt (c :: r)).isNone && brkFree r

/-- The prosody-wrapped content `chunkSSMLText` works on when the input
carries no rate directive of its own. -/
def slowWrapped (ssml : List Char) : List Char :=
  "<prosody rate=\"slow\">".toList ++ jsTrim (removeSpeakTags ssml) ++ "</prosody>".toList

/-- Number of occurrences of `pat` as a substring (counted at every
starting position). -/
def countTag (pat : List Char) : List Char → Nat
  | [] => 0
  | c :: rest => (if pat.isPrefixOf (c :: rest) then 1 else 0) + countTag pat rest

/-- Input exhibiting the chunk-validity defect: it carries its own rate
directive, so no prosody wrapper is added, yet mid-split chunks still
get a `</prosody>` appended and the re-opened tag duplicated. -/
def c5Input : List Char :=
  "a<break/>".toList ++
    ("<prosody rate=\"s\">".toList ++
      (List.replicate 2960 'a' ++ "</prosody>".toList))

/-- The static track catalog from `selectRandomMusicTrack`
(join-speech-and-music lambda); `(path, duration-in-seconds)`. -/
def musicTracks : List (String × ℚ) :=
  [("backing-track-1.mp3", 300), ("backing-track-2.mp3", 300),
   ("backing-track-3.mp3", 480), ("backing-track-3.mp3", 600)]

/-- Embedding of `selectRandomMusicTrack(speechLength)`.  `Math.random()`
is passed in as the parameter `rand` (a rational in `[0, 1)`); the source
computes `Math.floor(rand * suitableTracks.length)` as its index. -/
def selectRandomMusicTrack (rand : ℚ) (speechLength : ℚ) : Option String :=
  let suitableTracks := musicTracks.filter (fun track => speechLength < track.2)
  if suitableTracks.length = 0 then none
  else
    let randomIndex := (⌊rand * suitableTracks.length⌋).toNat
    some (suitableTracks.getD randomIndex ("", 0)).1

/-- JavaScript values, as far as the handlers inspect them. -/
inductive JsVal where
  | undef
  | nullv
  | bool (b : Bool)
  | num (n : Int)
  | str (s : String)
  | obj (fields : List (String × JsVal))

/-- JavaScript property access `v.k`: a field of an object, `undefined`
otherwise (no handler accesses string or array built-ins). -/
def getField : JsVal → String → JsVal
  | .obj fields, k =>
    match fields.find? (fun f => f.1 == k) with
    | some f => f.2
    | none => .undef
  | _, _ => (.undef)

/-- JavaScript truthiness. -/
def truthy : JsVal → Bool
  | .undef => false
  | .nullv => false
  | .bool b => b
  | .num n => n != 0
  | .str s => s != ""
  | .obj _ => true

/-- Session status values stored in the DynamoDB table. -/
inductive SessionStatus where
  | requested
  | completed
  | failed
deriving DecidableEq, Repr

/-- Result of one run of the creation-failed lambda: `none` when the
handler threw (its `JSON.parse` calls sit outside the `try`), otherwise
the returned status code; plus the session-status writes it performed. -/
structure CfOut where
  result : Option Int
  updates : List (String × SessionStatus)
deriving DecidableEq, Repr

/-- The body-extraction cascade at the top of the creation-failed lambda:
`event.body` (JSON-parsed), else `event.input.body` (JSON-parsed), else
`event.input`, else `{}`. -/
def cfExtractBody (parse : JsVal → Option JsVal) (event : JsVal) : Option JsVal :=
  if truthy (getField event "body") then parse (getField event "body")
  else if truthy (getField event "input") && truthy (getField (getField event "input") "body") then
    parse (getField (getField event "input") "body")
  else if truthy (getField event "input") then some (getField event "input")
  else some (.obj [])

/-- Embedding of the creation-failed lambda handler: extract a body,
require a truthy `sessionID`, and set the session's status to FAILED.
`parse` embeds `JSON.parse` (`none` = parse error, thrown outside the
`try`); `dynamoOk` says whether the `UpdateItemCommand` succeeds.  A
non-string `sessionID` value is rejected by the DynamoDB client inside
the `try`, hence a 500 response without a write. -/
def creationFailedHandler (parse : JsVal → Option JsVal) (dynamoOk : Bool)
    (event : JsVal) : CfOut :=
  match cfExtractBody parse event with
  | none => ⟨none, []⟩
  | some eventBody =>
    if truthy (getField eventBody "sessionID") = false then ⟨some 400, []⟩
    else
      match getField eventBody "sessionID" with
      | .str sid => if dynamoOk then ⟨some 200, [(sid, .failed)]⟩ else ⟨some 500, []⟩
      | _ => ⟨some 500, []⟩

/-- Outcome of one `SynthesizeSpeechCommand`: audio bytes, a response with
no `AudioStream`, or a thrown error. -/
inductive PollyResult where
  | ok (bytes : List Nat)
  | noStream
  | err

def PollyResult.isOk : PollyResult → Bool
  | .ok _ => true
  | _ => false

/-- Result of the text-to-speech handler: status code, the S3 objects
written, and the chunks sent to the speech engine (in call order). -/
structure TtsOut where
  statusCode : Int
  s3Writes : List (String × List Nat)
  pollyCalls : List (List Char)
deriving DecidableEq, Repr

/-- The sequential per-chunk synthesis loop (lines 142–170 of the
text-to-speech lambda): call the engine chunk by chunk, aborting on the
first thrown error or missing audio stream.  Returns the chunks actually
sent, and - when every chunk succeeded - the list of audio buffers in
chunk order. -/
def synthLoop (polly : List Char → PollyResult) :
    List (List Char) → List (List Char) × Option (List (List Nat))
  | [] => ([], some [])
  | c :: cs =>
    match polly c with
    | .ok bytes =>
      let r := synthLoop polly cs
      (c :: r.1, r.2.map (bytes :: ·))
    | _ => ([c], none)

/-- Script normalisation before chunking:
`script.replace(/\"/g, '"')` (the identity: the pattern is a plain
double quote replaced by itself) followed by
`script.replace(/'/g, '&apos;')`. -/
def normalizeScript (script : List Char) : List Char :=
  script.flatMap (fun c => if c = Char.ofNat 39 then "&apos;".toList else [c])

/-- String interpolation of a JavaScript value (as in the S3 key
template). -/
def jsDisplay : JsVal → String
  | .str s => s
  | .num n => toString n
  | .bool b => toString b
  | .undef => "undefined"
  | .nullv => "null"
  | .obj _ => "[object Object]"

/-- Embedding of the text-to-speech lambda handler.  `parse` embeds
`JSON.parse` (inside the `try`, so a failure is a 500); `polly` the
speech engine; `putOk` whether the final `PutObjectCommand` succeeds;
`currentDate` the date component of the S3 key.  A non-string truthy
`script` makes `script.trim()` throw, hence a 500. -/
def ttsHandler (parse : JsVal → Option JsVal) (polly : List Char → PollyResult)
    (putOk : Bool) (currentDate : String) (event : JsVal) : TtsOut :=
  match (if truthy (getField event "body") then parse (getField event "body") else some (.obj [])) with
  | none => ⟨500, [], []⟩
  | some body =>
    if truthy (getField body "userID") = false ∨ truthy (getField body "sessionID") = false then
      ⟨400, [], []⟩
    else
      match getField body "script" with
      | .str script =>
        if jsTrim script.toList = [] then ⟨400, [], []⟩
        else
          match (synthLoop polly (chunkSSMLText (normalizeScript script.toList) 3000)).2 with
          | none => ⟨500, [], (synthLoop polly (chunkSSMLText (normalizeScript script.toList) 3000)).1⟩
          | some audioBuffers =>
            if putOk then
              ⟨200,
               [(jsDisplay (getField body "userID") ++ "/" ++ currentDate ++ "/" ++
                   jsDisplay (getField body "sessionID") ++ ".mp3",
                 audioBuffers.flatten)],
               (synthLoop polly (chunkSSMLText (normalizeScript script.toList) 3000)).1⟩
            else ⟨500, [], (synthLoop polly (chunkSSMLText (normalizeScript script.toList) 3000)).1⟩
      | script =>
        if truthy script then ⟨500, [], []⟩ else ⟨400, [], []⟩

/-- Environment of one join-speech-and-music invocation: outcomes of the
external calls the handler makes, in source order. -/
structure JoinEnv where
  bucketsSet : Bool
  speechGetOk : Bool
  probeOk : Bool
  duration : ℚ
  rand : ℚ
  musicGetOk : Bool
  albumArtOk : Bool
  ffmpegOk : Bool
  putOk : Bool
  dynamoOk : Bool

/-- Result of one join-speech-and-music invocation: status code, the
session-status writes performed, the response body (abbreviated to its
`message` component), and the temp directories still existing when the
handler returns. -/
structure JoinOut where
  statusCode : Int
  body : String
  updates : List (String × SessionStatus)
  tempDirs : List String
deriving DecidableEq, Repr

/-- The three temp directories the handler creates under `os.tmpdir()`. -/
def joinTempDirs : List String := ["speechDir", "musicDir", "outputDir"]

/-- Embedding of the join-speech-and-music handler.  Control flow in
source order: parse body, validate the three fields, check the two bucket
env vars, download speech, create the three temp directories, probe the
speech duration, select a track, download it, (optionally fetch album
art, which only warns on failure), mix with ffmpeg, upload, update the
session to COMPLETED, and only then remove the temp directories.  All
failures return through `createErrorResponse` or the outer catch without
reaching the cleanup block.  A non-string `sessionID` is rejected by the
DynamoDB client (caught, 500).  `joinValidated` is the part after body
parsing. -/
def joinValidated (env : JoinEnv) (body : JsVal) : JoinOut :=
    if truthy (getField body "userID") = false then
      ⟨400, "userID is required", [], []⟩
    else if truthy (getField body "sessionID") = false then
      ⟨400, "sessionID is required", [], []⟩
    else if truthy (getField body "speechAudioPath") = false then
      ⟨400, "speechAudioPath is required", [], []⟩
    else if env.bucketsSet = false then
      ⟨500, "Error joining speech and music", [], []⟩
    else if env.speechGetOk = false then
      ⟨500, "Error downloading speech audio", [], []⟩
    else if env.probeOk = false then
      ⟨500, "Error joining speech and music", [], joinTempDirs⟩
    else
      match selectRandomMusicTrack env.rand env.duration with
      | none => ⟨400, "No suitable music track found for speech duration", [], joinTempDirs⟩
      | some _track =>
        if env.musicGetOk = false then
          ⟨500, "Error downloading music audio", [], joinTempDirs⟩
        else if env.ffmpegOk = false then
          ⟨500, "Error joining speech and music", [], joinTempDirs⟩
        else if env.putOk = false then
          ⟨500, "Error joining speech and music", [], joinTempDirs⟩
        else if env.dynamoOk = false then
          ⟨500, "Error updating DynamoDB", [], joinTempDirs⟩
        else
          match getField body "sessionID" with
          | .str sid => ⟨200, "Meditation audio created successfully", [(sid, .completed)], []⟩
          | _ => ⟨500, "Error joining speech and music", [], joinTempDirs⟩

/-- Embedding of the join-speech-and-music handler entry: parse the body
(`JSON.parse` inside the `try`, so a failure is a 500) and run the
validated body. -/
def joinHandler (parse : JsVal → Option JsVal) (env : JoinEnv) (event : JsVal) : JoinOut :=
  match (if truthy (getField event "body") then parse (getField event "body") else some (.obj [])) with
  | none => ⟨500, "Error joining speech and music", [], []⟩
  | some body => joinValidated env body

/-- Outcome of one Lambda stage invocation as the Step Functions state
machine sees it: a thrown fault (caught by `addCatch`, which replaces the
state with the `{Error, Cause}` object), or a returned payload
(`{statusCode, body}`, extracted via `outputPath: '$.Payload'`). -/
inductive StageOutcome where
  | threw (error cause : String)
  | ret (statusCode : Int) (body : String)

/-- Observable actions of one workflow execution, in order. -/
inductive WfEvent where
  | stageStart (name : String)
  | handlerInvoked (payload : JsVal)
  | sessionUpdate (sid : String) (st : SessionStatus)

/-- Terminal outcome of one workflow execution.  `runtimeFailed` is a
`States.Runtime` fault (unresolvable JSONPath in a task's `Parameters`),
which cannot be caught and fails the execution directly; `timedOut` is
the state-machine-level timeout, which likewise cannot be caught. -/
inductive WfResult where
  | succeeded
  | failed
  | runtimeFailed
  | timedOut
deriving DecidableEq, Repr

structure WfRun where
  events : List WfEvent
  result : WfResult

/-- JSONPath field resolution as used in `Parameters` payloads: `none`
(failure, `States.Runtime`) when the path does not exist on the input. -/
def lookupField : JsVal → String → Option JsVal
  | .obj fields, k => (fields.find? (fun f => f.1 == k)).map (fun f => f.2)
  | _, _ => none

/-- The shared `HandleFailure` task of `MeditationWorkflow`: build the
payload `{error: $.body, statusCode: $.statusCode, input:
$$.Execution.Input}` from the diverted state, invoke the creation-failed
lambda on it, then enter the terminal `Fail` state.  If either JSONPath
is unresolvable on the diverted state - as happens for the `{Error,
Cause}` object produced by `addCatch` - the task fails with
`States.Runtime` and the lambda is never invoked. -/
def handleFailure (parse : JsVal → Option JsVal) (cfDynamoOk : Bool)
    (execInput : JsVal) (state : JsVal) : WfRun :=
  match lookupField state "body", lookupField state "statusCode" with
  | some b, some sc =>
    let payload := JsVal.obj [("error", b), ("statusCode", sc), ("input", execInput)]
    ⟨.handlerInvoked payload ::
      (creationFailedHandler parse cfDynamoOk payload).updates.map
        (fun u => .sessionUpdate u.1 u.2),
     .failed⟩
  | _, _ => ⟨[], .runtimeFailed⟩

/-- A returned stage payload as the next state's input. -/
def stageResponseJs (sc : Int) (body : String) : JsVal :=
  .obj [("statusCode", .num sc), ("body", .str body)]

/-- One execution of the `MeditationWorkflow` state machine
(GenerateScript → Choice → TextToSpeech → Choice → JoinAudio → Choice →
Succeed, every non-200 Choice branch and every catch diverting to the
shared `HandleFailure` task followed by `Fail`).  The script and speech
stages are given by their outcomes (they perform no session writes); the
join stage runs the embedded `joinHandler` unless `joinCrash` simulates a
thrown fault. -/
def runWorkflow (parse : JsVal → Option JsVal) (cfDynamoOk : Bool) (execInput : JsVal)
    (gs tts : StageOutcome) (jenv : JoinEnv) (joinCrash : Option (String × String)) : WfRun :=
  match gs with
  | .threw e c =>
    let hf := handleFailure parse cfDynamoOk execInput (.obj [("Error", .str e), ("Cause", .str c)])
    ⟨.stageStart "GenerateScript" :: hf.events, hf.result⟩
  | .ret sc body =>
    if sc = 200 then
      match tts with
      | .threw e c =>
        let hf := handleFailure parse cfDynamoOk execInput (.obj [("Error", .str e), ("Cause", .str c)])
        ⟨.stageStart "GenerateScript" :: .stageStart "TextToSpeech" :: hf.events, hf.result⟩
      | .ret sc2 body2 =>
        if sc2 = 200 then
          match joinCrash with
          | some ec =>
            let hf := handleFailure parse cfDynamoOk execInput
              (.obj [("Error", .str ec.1), ("Cause", .str ec.2)])
            ⟨.stageStart "GenerateScript" :: .stageStart "TextToSpeech" ::
              .stageStart "JoinAudio" :: hf.events, hf.result⟩
          | none =>
            let j := joinHandler parse jenv (stageResponseJs sc2 body2)
            if j.statusCode = 200 then
              ⟨.stageStart "GenerateScript" :: .stageStart "TextToSpeech" ::
                .stageStart "JoinAudio" ::
                j.updates.map (fun u => .sessionUpdate u.1 u.2),
               .succeeded⟩
            else
              let hf := handleFailure parse cfDynamoOk execInput
                (stageResponseJs j.statusCode j.body)
              ⟨.stageStart "GenerateScript" :: .stageStart "TextToSpeech" ::
                .stageStart "JoinAudio" ::
                (j.updates.map (fun u => WfEvent.sessionUpdate u.1 u.2) ++ hf.events),
               hf.result⟩
        else
          let hf := handleFailure parse cfDynamoOk execInput (stageResponseJs sc2 body2)
          ⟨.stageStart "GenerateScript" :: .stageStart "TextToSpeech" :: hf.events, hf.result⟩
    else
      let hf := handleFailure parse cfDynamoOk execInput (stageResponseJs sc body)
      ⟨.stageStart "GenerateScript" :: hf.events, hf.result⟩

/-- The state-machine-level 15-minute timeout (`timeout:
cdk.Duration.minutes(15)`): if the wall-clock budget elapses while the
execution is still running (modelled as: before its `k`-th observable
action), the execution halts where it is with `States.Timeout` - a
failure that no state-level catch can intercept, so nothing further
runs. -/
def runWorkflowTimed (k : Nat) (parse : JsVal → Option JsVal) (cfDynamoOk : Bool)
    (execInput : JsVal) (gs tts : StageOutcome) (jenv : JoinEnv)
    (joinCrash : Option (String × String)) : WfRun :=
  let r := runWorkflow parse cfDynamoOk execInput gs tts jenv joinCrash
  if k < r.events.length then ⟨r.events.take k, .timedOut⟩ else r

/-- The session-status writes of a run, in execution order. -/
def wfUpdates (r : WfRun) : List (String × SessionStatus) :=
  r.events.filterMap (fun e => match e with
    | .sessionUpdate sid st => some (sid, st)
    | _ => none)

/-- The successive values of the Session's `status` field: created as
REQUESTED by the intake lambda, then each write of the run in order. -/
def statusTrace (r : WfRun) : List SessionStatus :=
  .requested :: (wfUpdates r).map (fun u => u.2)

/-- Once the status reaches a terminal value, every later value in the
trace is the same. -/
def StatusMonotone (l : List SessionStatus) : Prop :=
  ∀ i, i + 1 < l.length →
    (l.getD i .requested = .completed ∨ l.getD i .requested = .failed) →
    l.getD (i + 1) .requested = l.getD i .requested

example (x : List Char) : ("<break".toList).isPrefixOf ('<' :: 'p' :: x) = false := by
  simp [List.isPrefixOf]

example (x : List Char) : ("<break".toList).isPrefixOf ('a' :: x) = false := by
  simp [List.isPrefixOf]

example (x : List Char) : "<prosody rate=\"slow\">".toList ++ x = '<' :: 'p' :: 'r' :: 'o' :: 's' :: 'o' :: 'd' :: 'y' :: ' ' :: 'r' :: 'a' :: 't' :: 'e' :: '=' :: '"' :: 's' :: 'l' :: 'o' :: 'w' :: '"' :: '>' ::x := by
  rfl

example (x : List Char) : findProsodyTag ("<prosody rate=\"slow\">".toList ++ x) = some ("<prosody rate=\"slow\">".toList) := by
  simp [findProsodyTag, List.isPrefixOf, takeToGt]

example (l : List Char) (h : ciEqChar '<' 'a' = false) : hasRateCtrl ('a' :: l) = hasRateCtrl l := by
  simp [hasRateCtrl, ciPrefixOf, h]

example (l : List Char) : hasRateCtrl ('a' :: l) = hasRateCtrl l := by
  simp [hasRateCtrl, ciPrefixOf, ciEqChar]

example (c : Char) (l : List Char) (h : c ≠ '<') : breakMatchAt (c :: l) = none := by
  simp only [breakMatchAt, List.isPrefixOf]
  simp [h.symm]

example (n : Nat) (t : List Char) :
    removeSpeakTags (List.replicate n 'a' ++ t) = List.replicate n 'a' ++ removeSpeakTags t := by
  induction n with
  | zero => simp
  | succ n ih =>
    rw [List.replicate_succ, List.cons_append]
    rw [show removeSpeakTags ('a' :: (List.replicate n 'a' ++ t)) = 'a' :: removeSpeakTags (List.replicate n 'a' ++ t) from by
      simp [removeSpeakTags, List.isPrefixOf]]
    rw [ih]
    simp

example (n : Nat) (t : List Char) : hasRateCtrl (List.replicate n 'a' ++ t) = hasRateCtrl t := by
  induction n with
  | zero => simp
  | succ n ih =>
    rw [List.replicate_succ, List.cons_append]
    rw [show hasRateCtrl ('a' :: (List.replicate n 'a' ++ t)) = hasRateCtrl (List.replicate n 'a' ++ t) from by
      simp [hasRateCtrl, ciPrefixOf, ciEqChar]]
    exact ih

theorem brkFree_cons_ne (c : Char) (l : List Char) (h : c ≠ '<') :
    brkFree (c :: l) = brkFree l := by
  have hb : breakMatchAt (c :: l) = none := by
    simp only [breakMatchAt, List.isPrefixOf]
    simp [h.symm]
  simp [brkFree, hb]

theorem brkFree_replicate_a (n : Nat) (t : List Char) :
    brkFree (List.replicate n 'a' ++ t) = brkFree t := by
  induction n with
  | zero => simp
  | succ n ih =>
    rw [List.replicate_succ, List.cons_append, brkFree_cons_ne _ _ (by decide)]
    exact ih

theorem splitBreaks_of_brkFree (l : List Char) (h : brkFree l = true) :
    splitBreaks l = ([l], []) := by
  induction l with
  | nil => simp [splitBreaks]
  | cons c r ih =>
    simp only [brkFree, Bool.and_eq_true, Option.isNone_iff_eq_none] at h
    rw [splitBreaks]
    split
    · rename_i p hp
      rw [h.1] at hp
      cases hp
    · rw [ih h.2]
      simp [List.modifyHead]

-- walk brkFree through the concrete prosody-open tag

example (x : List Char) (h : brkFree x = true) :
    brkFree ("<prosody rate=\"slow\">".toList ++ x) = true := by
  rw [show "<prosody rate=\"slow\">".toList ++ x = '<' :: 'p' :: 'r' :: 'o' :: 's' :: 'o' :: 'd' :: 'y' :: ' ' :: 'r' :: 'a' :: 't' :: 'e' :: '=' :: '"' :: 's' :: 'l' :: 'o' :: 'w' :: '"' :: '>' ::x from rfl]
  rw [show brkFree ('<' :: 'p' :: 'r' :: 'o' :: 's' :: 'o' :: 'd' :: 'y' :: ' ' :: 'r' :: 'a' :: 't' :: 'e' :: '=' :: '"' :: 's' :: 'l' :: 'o' :: 'w' :: '"' :: '>' ::x) = brkFree ('p' :: 'r' :: 'o' :: 's' :: 'o' :: 'd' :: 'y' :: ' ' :: 'r' :: 'a' :: 't' :: 'e' :: '=' :: '"' :: 's' :: 'l' :: 'o' :: 'w' :: '"' :: '>' ::x) from by
    simp [brkFree, breakMatchAt, List.isPrefixOf]]
  repeat rw [brkFree_cons_ne _ _ (by decide)]
  exact h

theorem jsTrim_eq_self (l : List Char)
    (hh : ∀ c, l.head? = some c → jsWhitespace c = false)
    (hl : ∀ c, l.getLast? = some c → jsWhitespace c = false) :
    jsTrim l = l := by
  cases hc : l with
  | nil => simp [jsTrim]
  | cons c t =>
    subst hc
    have h1 : List.dropWhile jsWhitespace (c :: t) = c :: t := by
      rw [List.dropWhile_cons, hh c rfl]
      simp
    unfold jsTrim
    rw [h1]
    cases hr : (c :: t).reverse with
    | nil => simp at hr
    | cons d r =>
      have hd : jsWhitespace d = false := by
        apply hl
        rw [← List.head?_reverse, hr]
        rfl
      have h2 : List.dropWhile jsWhitespace (d :: r) = d :: r := by
        rw [List.dropWhile_cons, hd]
        simp
      rw [h2, ← hr, List.reverse_reverse]

example (x : List Char) :
    ("<prosody rate=\"slow\">".toList ++ x ++ "</prosody>".toList).getLast? = some '>' := by
  rw [List.getLast?_append]
  rfl

example (n : Nat) : (List.replicate (n+1) 'a').getLast? = some 'a' := by
  rw [← List.head?_reverse, List.reverse_replicate]
  simp [List.replicate_succ]

theorem removeSpeakTags_replicate_a (n : Nat) (t : List Char) :
    removeSpeakTags (List.replicate n 'a' ++ t) = List.replicate n 'a' ++ removeSpeakTags t := by
  induction n with
  | zero => simp
  | succ n ih =>
    rw [List.replicate_succ, List.cons_append]
    rw [show removeSpeakTags ('a' :: (List.replicate n 'a' ++ t)) = 'a' :: removeSpeakTags (List.replicate n 'a' ++ t) from by
      simp [removeSpeakTags, List.isPrefixOf]]
    rw [ih]
    simp

theorem hasRateCtrl_replicate_a (n : Nat) (t : List Char) :
    hasRateCtrl (List.replicate n 'a' ++ t) = hasRateCtrl t := by
  induction n with
  | zero => simp
  | succ n ih =>
    rw [List.replicate_succ, List.cons_append]
    rw [show hasRateCtrl ('a' :: (List.replicate n 'a' ++ t)) = hasRateCtrl (List.replicate n 'a' ++ t) from by
      simp [hasRateCtrl, ciPrefixOf, ciEqChar]]
    exact ih

theorem findProsodyTag_slow (x : List Char) :
    findProsodyTag ("<prosody rate=\"slow\">".toList ++ x) = some ("<prosody rate=\"slow\">".toList) := by
  simp [findProsodyTag, List.isPrefixOf, takeToGt]

theorem brkFree_slowtag (x : List Char) (h : brkFree x = true) :
    brkFree ("<prosody rate=\"slow\">".toList ++ x) = true := by
  rw [show "<prosody rate=\"slow\">".toList ++ x = '<' :: 'p' :: 'r' :: 'o' :: 's' :: 'o' :: 'd' :: 'y' :: ' ' :: 'r' :: 'a' :: 't' :: 'e' :: '=' :: '"' :: 's' :: 'l' :: 'o' :: 'w' :: '"' :: '>' ::x from rfl]
  rw [show brkFree ('<' :: 'p' :: 'r' :: 'o' :: 's' :: 'o' :: 'd' :: 'y' :: ' ' :: 'r' :: 'a' :: 't' :: 'e' :: '=' :: '"' :: 's' :: 'l' :: 'o' :: 'w' :: '"' :: '>' ::x) = brkFree ('p' :: 'r' :: 'o' :: 's' :: 'o' :: 'd' :: 'y' :: ' ' :: 'r' :: 'a' :: 't' :: 'e' :: '=' :: '"' :: 's' :: 'l' :: 'o' :: 'w' :: '"' :: '>' ::x) from by
    simp [brkFree, breakMatchAt, List.isPrefixOf]]
  repeat rw [brkFree_cons_ne _ _ (by decide)]
  exact h

theorem chunkSSMLText_expand (ssml : List Char) (maxLength : Nat) :
    chunkSSMLText ssml maxLength =
      (if hasRateCtrl (jsTrim (removeSpeakTags ssml)) then
        (if ((jsTrim (removeSpeakTags ssml)).length : Int) ≤
            (maxLength : Int) - ("<speak></speak>".toList).length - 0 then
          ["<speak>".toList ++ jsTrim (removeSpeakTags ssml) ++ "</speak>".toList]
        else
          (chunkLoop
            (match findProsodyTag (jsTrim (removeSpeakTags ssml)) with
              | some tag => [tag] | none => [])
            ((maxLength : Int) - ("<speak></speak>".toList).length - 0)
            (splitBreaks (jsTrim (removeSpeakTags ssml))).1
            (splitBreaks (jsTrim (removeSpeakTags ssml))).2 []).1 ++
          (if jsTrim (chunkLoop
            (match findProsodyTag (jsTrim (removeSpeakTags ssml)) with
              | some tag => [tag] | none => [])
            ((maxLength : Int) - ("<speak></speak>".toList).length - 0)
            (splitBreaks (jsTrim (removeSpeakTags ssml))).1
            (splitBreaks (jsTrim (removeSpeakTags ssml))).2 []).2 ≠ [] then
            ["<speak>".toList ++ jsTrim (chunkLoop
              (match findProsodyTag (jsTrim (removeSpeakTags ssml)) with
                | some tag => [tag] | none => [])
              ((maxLength : Int) - ("<speak></speak>".toList).length - 0)
              (splitBreaks (jsTrim (removeSpeakTags ssml))).1
              (splitBreaks (jsTrim (removeSpeakTags ssml))).2 []).2 ++ "</speak>".toList]
          else []))
      else
        (if ((("<prosody rate=\"slow\">".toList ++ jsTrim (removeSpeakTags ssml) ++ "</prosody>".toList).length) : Int) ≤ ((maxLength : Int) - ("<speak></speak>".toList).length - ("<prosody rate=\"slow\"></prosody>".toList).length) then
          ["<speak>".toList ++ ("<prosody rate=\"slow\">".toList ++ jsTrim (removeSpeakTags ssml) ++ "</prosody>".toList) ++ "</speak>".toList]
         else
          (chunkLoop (match findProsodyTag ("<prosody rate=\"slow\">".toList ++ jsTrim (removeSpeakTags ssml) ++ "</prosody>".toList) with | some tag => [tag] | none => []) ((maxLength : Int) - ("<speak></speak>".toList).length - ("<prosody rate=\"slow\"></prosody>".toList).length) (splitBreaks ("<prosody rate=\"slow\">".toList ++ jsTrim (removeSpeakTags ssml) ++ "</prosody>".toList)).1 (splitBreaks ("<prosody rate=\"slow\">".toList ++ jsTrim (removeSpeakTags ssml) ++ "</prosody>".toList)).2 []).1 ++
          (if jsTrim (chunkLoop (match findProsodyTag ("<prosody rate=\"slow\">".toList ++ jsTrim (removeSpeakTags ssml) ++ "</prosody>".toList) with | some tag => [tag] | none => []) ((maxLength : Int) - ("<speak></speak>".toList).length - ("<prosody rate=\"slow\"></prosody>".toList).length) (splitBreaks ("<prosody rate=\"slow\">".toList ++ jsTrim (removeSpeakTags ssml) ++ "</prosody>".toList)).1 (splitBreaks ("<prosody rate=\"slow\">".toList ++ jsTrim (removeSpeakTags ssml) ++ "</prosody>".toList)).2 []).2 ≠ [] then
            ["<speak>".toList ++ jsTrim (chunkLoop (match findProsodyTag ("<prosody rate=\"slow\">".toList ++ jsTrim (removeSpeakTags ssml) ++ "</prosody>".toList) with | some tag => [tag] | none => []) ((maxLength : Int) - ("<speak></speak>".toList).length - ("<prosody rate=\"slow\"></prosody>".toList).length) (splitBreaks ("<prosody rate=\"slow\">".toList ++ jsTrim (removeSpeakTags ssml) ++ "</prosody>".toList)).1 (splitBreaks ("<prosody rate=\"slow\">".toList ++ jsTrim (removeSpeakTags ssml) ++ "</prosody>".toList)).2 []).2 ++ "</speak>".toList]
          else []))) := by
  unfold chunkSSMLText
  by_cases h : hasRateCtrl (jsTrim (removeSpeakTags ssml)) = true
  · simp only [h, if_true]
    split
    · rfl
    · split
      · simp
      · simp
  · simp only [Bool.not_eq_true] at h
    simp only [h, Bool.false_eq_true, if_false]
    split
    · rfl
    · split
      · simp
      · simp

theorem chunkLoop_nil (tags : List (List Char)) (s : Int) (breaks : List (List Char)) (current : List Char) :
    chunkLoop tags s [] breaks current = ([], current) := rfl

theorem chunkLoop_cons_expand (tags : List (List Char)) (s : Int)
    (part : List Char) (parts breaks : List (List Char)) (current : List Char) :
    chunkLoop tags s (part :: parts) breaks current =
      (if ((current ++ part ++ breaks.headD []).length : Int) > s ∧ jsTrim current ≠ [] then
        (("<speak>".toList ++ (jsTrim current ++ (if tags ≠ [] then "</prosody>".toList else [])) ++ "</speak>".toList) ::
          (chunkLoop tags s parts (if breaks.headD [] ≠ [] then breaks.tail else breaks)
            ((if tags ≠ [] then tags.flatten ++ [' '] else []) ++ part ++ breaks.headD [])).1,
         (chunkLoop tags s parts (if breaks.headD [] ≠ [] then breaks.tail else breaks)
            ((if tags ≠ [] then tags.flatten ++ [' '] else []) ++ part ++ breaks.headD [])).2)
      else chunkLoop tags s parts (if breaks.headD [] ≠ [] then breaks.tail else breaks) (current ++ part ++ breaks.headD [])) := by
  rw [chunkLoop]

theorem head_replicate_big : (List.replicate 2955 'a').head? = some 'a' := by
  rw [show (2955 : Nat) = 2954 + 1 from rfl, List.replicate_succ]
  rfl

theorem getLast?_append_right {α : Type} (l m : List α) (d : α)
    (hm : m.getLast? = some d) : (l ++ m).getLast? = some d := by
  rw [← List.head?_reverse, List.reverse_append]
  rw [← List.head?_reverse] at hm
  cases hr : m.reverse with
  | nil => rw [hr] at hm; cases hm
  | cons x xs =>
    rw [hr] at hm
    simp only [List.head?_cons] at hm
    cases hm
    simp [hr]

theorem c1_cex_compute :
    chunkSSMLText (List.replicate 2955 'a') 3000 =
      ["<speak>".toList ++ ("<prosody rate=\"slow\">".toList ++ (List.replicate 2955 'a' ++ ("</prosody>".toList ++ "</speak>".toList)))] := by
  have hrm : removeSpeakTags (List.replicate 2955 'a') = List.replicate 2955 'a' := by
    have h0 := removeSpeakTags_replicate_a 2955 []
    rw [List.append_nil] at h0
    rw [h0, show removeSpeakTags [] = [] from by rw [removeSpeakTags], List.append_nil]
  have hclean : jsTrim (removeSpeakTags (List.replicate 2955 'a')) = List.replicate 2955 'a' := by
    rw [hrm]
    apply jsTrim_eq_self
    · intro c hc
      rw [head_replicate_big] at hc
      cases hc; rfl
    · intro c hc
      rw [← List.head?_reverse, List.reverse_replicate, head_replicate_big] at hc
      cases hc; rfl
  have hrate : hasRateCtrl (List.replicate 2955 'a') = false := by
    have h0 := hasRateCtrl_replicate_a 2955 []
    rw [List.append_nil] at h0
    rw [h0]
    rfl
  have hwlenN : ("<prosody rate=\"slow\">".toList ++ (List.replicate 2955 'a' ++ "</prosody>".toList)).length = 2986 := by
    simp only [List.length_append, List.length_replicate,
      show ("<prosody rate=\"slow\">".toList).length = 21 from rfl,
      show ("</prosody>".toList).length = 10 from rfl]
  have htrimW : jsTrim ("<prosody rate=\"slow\">".toList ++ (List.replicate 2955 'a' ++ "</prosody>".toList)) = "<prosody rate=\"slow\">".toList ++ (List.replicate 2955 'a' ++ "</prosody>".toList) := by
    apply jsTrim_eq_self
    · intro c hc
      rw [show "<prosody rate=\"slow\">".toList ++ (List.replicate 2955 'a' ++ "</prosody>".toList) = '<' :: ("prosody rate=\"slow\">".toList ++ (List.replicate 2955 'a' ++ "</prosody>".toList)) from rfl] at hc
      cases hc; rfl
    · intro c hc
      rw [getLast?_append_right _ _ '>' (by
        apply getLast?_append_right
        rfl)] at hc
      cases hc; rfl
  rw [chunkSSMLText_expand, hclean, hrate]
  simp only [Bool.false_eq_true, if_false, List.append_assoc]
  rw [if_neg (by
    rw [show ((("<prosody rate=\"slow\">".toList ++ (List.replicate 2955 'a' ++ "</prosody>".toList)).length : Int)) = ((2986 : Nat) : Int) from by rw [hwlenN]]
    decide)]
  rw [findProsodyTag_slow]
  rw [splitBreaks_of_brkFree _ (by
    apply brkFree_slowtag
    rw [brkFree_replicate_a]
    decide)]
  rw [chunkLoop_cons_expand]
  rw [if_neg (by intro hcontra; exact hcontra.2 rfl)]
  simp only [List.headD_nil, List.nil_append, List.append_nil, ne_eq]
  rw [chunkLoop_nil, htrimW]
  rw [if_pos (by
    intro hfalse
    have := congrArg List.length hfalse
    rw [hwlenN] at this
    cases this)]
  simp only [List.append_assoc, List.nil_append]

theorem jsTrim_length_le (l : List Char) : (jsTrim l).length ≤ l.length := by
  unfold jsTrim
  calc ((l.dropWhile jsWhitespace).reverse.dropWhile jsWhitespace).reverse.length
      = ((l.dropWhile jsWhitespace).reverse.dropWhile jsWhitespace).length := by rw [List.length_reverse]
    _ ≤ (l.dropWhile jsWhitespace).reverse.length :=
        (List.dropWhile_suffix _).sublist.length_le
    _ = (l.dropWhile jsWhitespace).length := by rw [List.length_reverse]
    _ ≤ l.length := (List.dropWhile_suffix _).sublist.length_le

theorem jsTrim_nil_all_ws (l : List Char) (h : jsTrim l = []) :
    ∀ c ∈ l, jsWhitespace c := by
  unfold jsTrim at h
  rw [List.reverse_eq_nil_iff] at h
  rw [List.dropWhile_eq_nil_iff] at h
  have hpre : ∀ c ∈ (l.dropWhile jsWhitespace), jsWhitespace c := by
    intro c hc
    exact h c (by simp [hc])
  intro c hc
  rw [← List.takeWhile_append_dropWhile (p := jsWhitespace) (l := l)] at hc
  rcases List.mem_append.mp hc with h1 | h2
  · exact List.mem_takeWhile_imp h1
  · exact hpre c h2

theorem dropWhile_append_of_all {p : Char → Bool} (l x : List Char)
    (h : ∀ c ∈ l, p c) : (l ++ x).dropWhile p = x.dropWhile p := by
  induction l with
  | nil => simp
  | cons c t ih =>
    rw [List.cons_append, List.dropWhile_cons, h c (by simp)]
    exact ih (fun d hd => h d (by simp [hd]))

theorem jsTrim_append_nil_left (current x : List Char) (h : jsTrim current = []) :
    jsTrim (current ++ x) = jsTrim x := by
  unfold jsTrim
  rw [dropWhile_append_of_all current x (jsTrim_nil_all_ws current h)]

theorem splitBreaks_breaks_ne_nil_aux :
    ∀ (n : Nat) (l : List Char), l.length ≤ n → ∀ b ∈ (splitBreaks l).2, b ≠ [] := by
  intro n
  induction n with
  | zero =>
    intro l hl
    have : l = [] := List.eq_nil_of_length_eq_zero (Nat.le_zero.mp hl)
    subst this
    simp [splitBreaks]
  | succ n ih =>
    intro l hl
    cases l with
    | nil => simp [splitBreaks]
    | cons c rest =>
      rw [splitBreaks]
      split
      · rename_i p hp
        intro b hb
        simp only [List.mem_cons] at hb
        rcases hb with hb | hb
        · subst hb
          unfold breakMatchAt at hp
          split at hp
          · split at hp
            · cases hp; simp
            · cases hp
          · cases hp
        · have hlen := breakMatchAt_rem_length _ _ hp
          simp only [List.length_cons] at hlen hl
          exact ih p.2 (by omega) b hb
      · intro b hb
        simp only [List.length_cons] at hl
        exact ih rest (by omega) b hb

theorem splitBreaks_breaks_ne_nil (l : List Char) :
    ∀ b ∈ (splitBreaks l).2, b ≠ [] :=
  splitBreaks_breaks_ne_nil_aux l.length l (Nat.le_refl _)

theorem chunkLoop_length_bound (parts : List (List Char)) :
    ∀ (breaks : List (List Char)) (current : List Char),
      (jsTrim current).length ≤ 2954 →
      (∀ i, 22 + (parts.getD i []).length + (breaks.getD i []).length ≤ 2954) →
      (∀ b ∈ breaks, b ≠ []) →
      (∀ ch ∈ (chunkLoop ["<prosody rate=\"slow\">".toList] 2954 parts breaks current).1,
          ch.length ≤ 3000) ∧
      (jsTrim (chunkLoop ["<prosody rate=\"slow\">".toList] 2954 parts breaks current).2).length ≤ 2954 := by
  induction parts with
  | nil =>
    intro breaks current hcur hfit hbk
    rw [chunkLoop_nil]
    exact ⟨by simp, hcur⟩
  | cons part parts ih =>
    intro breaks current hcur hfit hbk
    have hfit0 := hfit 0
    simp only [List.getD_cons_zero] at hfit0
    have hnb : (breaks.headD []).length ≤ (breaks.getD 0 []).length := by
      cases breaks <;> simp
    have hshift : ∀ i,
        22 + (parts.getD i []).length +
          ((if breaks.headD [] ≠ [] then breaks.tail else breaks).getD i []).length ≤ 2954 := by
      intro i
      have h1 := hfit (i + 1)
      simp only [List.getD_cons_succ] at h1
      cases hb : breaks with
      | nil => simpa [hb] using h1
      | cons b bs =>
        have hbne : b ≠ [] := hbk b (by simp [hb])
        simp only [hb, List.headD_cons, hbne, if_pos, ne_eq, not_false_iff, List.tail_cons]
        simpa [hb] using h1
    have hbk' : ∀ b ∈ (if breaks.headD [] ≠ [] then breaks.tail else breaks), b ≠ [] := by
      intro b hb
      split at hb
      · exact hbk b (List.mem_of_mem_tail hb)
      · exact hbk b hb
    rw [chunkLoop_cons_expand]
    split
    · rename_i hcond
      have hnewcur :
          (jsTrim ((if (["<prosody rate=\"slow\">".toList] : List (List Char)) ≠ [] then
              (["<prosody rate=\"slow\">".toList] : List (List Char)).flatten ++ [' '] else []) ++ part ++ breaks.headD [])).length ≤ 2954 := by
        calc (jsTrim _).length ≤ _ := jsTrim_length_le _
          _ ≤ 2954 := by
            simp only [ne_eq, List.cons_ne_nil, not_false_iff, if_pos, List.flatten,
              List.append_nil, List.length_append]
            have : ("<prosody rate=\"slow\">".toList).length = 21 := rfl
            simp only [this, List.length_cons, List.length_nil]
            omega
      have hrec := ih _ _ hnewcur hshift hbk'
      constructor
      · intro ch hch
        simp only [List.mem_cons] at hch
        rcases hch with hch | hch
        · subst hch
          simp only [ne_eq, List.cons_ne_nil, not_false_iff, if_pos, List.length_append]
          have h7 : ("<speak>".toList).length = 7 := rfl
          have h8 : ("</speak>".toList).length = 8 := rfl
          have h10 : ("</prosody>".toList).length = 10 := rfl
          simp only [h7, h8, h10]
          omega
        · exact hrec.1 ch hch
      · exact hrec.2
    · rename_i hcond
      have hcases : ((current ++ part ++ breaks.headD []).length : Int) ≤ 2954 ∨ jsTrim current = [] := by
        by_cases h1 : ((current ++ part ++ breaks.headD []).length : Int) > 2954
        · right
          by_contra h2
          exact hcond ⟨h1, h2⟩
        · left; omega
      have hnewcur : (jsTrim (current ++ part ++ breaks.headD [])).length ≤ 2954 := by
        rcases hcases with h1 | h1
        · calc (jsTrim _).length ≤ (current ++ part ++ breaks.headD []).length := jsTrim_length_le _
            _ ≤ 2954 := by exact_mod_cast h1
        · rw [List.append_assoc, jsTrim_append_nil_left _ _ h1]
          calc (jsTrim _).length ≤ (part ++ breaks.headD []).length := jsTrim_length_le _
            _ ≤ 2954 := by
              simp only [List.length_append]
              omega
      exact ih _ _ hnewcur hshift hbk'

/-- Claim C1 (amended): if the input carries no prosody rate directive of its own, and every pause-delimited segment of the wrapped content - together with its trailing break marker and the 22-character re-opening prefix - fits within the safe length 2954, then every chunk produced by `chunkSSMLText` at the default maximum length 3000 has length at most 3000. -/
theorem c1_theorem (ssml : List Char)
    (hrate : hasRateCtrl (jsTrim (removeSpeakTags ssml)) = false)
    (hfit : ∀ i, 22 + ((splitBreaks (slowWrapped ssml)).1.getD i []).length
        + ((splitBreaks (slowWrapped ssml)).2.getD i []).length ≤ 2954) :
    ∀ chunk ∈ chunkSSMLText ssml 3000, chunk.length ≤ 3000 := by
  unfold slowWrapped at hfit
  rw [List.append_assoc] at hfit
  have h7 : ("<speak>".toList).length = 7 := rfl
  have h8 : ("</speak>".toList).length = 8 := rfl
  have h21 : ("<prosody rate=\"slow\">".toList).length = 21 := rfl
  have h10 : ("</prosody>".toList).length = 10 := rfl
  have hsafe : ((3000 : Nat) : Int) - (("<speak></speak>".toList).length : Int)
      - (("<prosody rate=\"slow\"></prosody>".toList).length : Int) = 2954 := by decide
  rw [chunkSSMLText_expand, hrate]
  simp only [Bool.false_eq_true, if_false, List.append_assoc]
  rw [hsafe]
  split
  · rename_i hle
    intro chunk hch
    simp only [List.mem_singleton] at hch
    subst hch
    simp only [List.length_append, h7, h8, h21, h10, List.length_cons]
    have hlenW : ((jsTrim (removeSpeakTags ssml)).length : Int) + 31 ≤ 2954 := by
      simp only [List.length_append, h21, h10] at hle
      push_cast at hle ⊢
      omega
    have : (jsTrim (removeSpeakTags ssml)).length ≤ 2923 := by
      omega
    omega
  · rename_i hgt
    rw [findProsodyTag_slow]
    intro chunk hch
    have hbound := chunkLoop_length_bound
      (splitBreaks ("<prosody rate=\"slow\">".toList ++ (jsTrim (removeSpeakTags ssml) ++ "</prosody>".toList))).1
      (splitBreaks ("<prosody rate=\"slow\">".toList ++ (jsTrim (removeSpeakTags ssml) ++ "</prosody>".toList))).2
      [] (by rw [show jsTrim [] = [] from rfl]; simp) hfit
      (splitBreaks_breaks_ne_nil _)
    rcases List.mem_append.mp hch with hch | hch
    · exact hbound.1 chunk hch
    · split at hch
      · simp only [List.mem_singleton] at hch
        subst hch
        simp only [List.length_append, h7, h8]
        have := hbound.2
        omega
      · cases hch

theorem brkFree_sTag (x : List Char) (h : brkFree x = true) :
    brkFree ("<prosody rate=\"s\">".toList ++ x) = true := by
  rw [show "<prosody rate=\"s\">".toList ++ x = '<' :: 'p' :: 'r' :: 'o' :: 's' :: 'o' :: 'd' :: 'y' :: ' ' :: 'r' :: 'a' :: 't' :: 'e' :: '=' :: '"' :: 's' :: '"' :: '>' ::x from rfl]
  rw [show brkFree ('<' :: 'p' :: 'r' :: 'o' :: 's' :: 'o' :: 'd' :: 'y' :: ' ' :: 'r' :: 'a' :: 't' :: 'e' :: '=' :: '"' :: 's' :: '"' :: '>' ::x) = brkFree ('p' :: 'r' :: 'o' :: 's' :: 'o' :: 'd' :: 'y' :: ' ' :: 'r' :: 'a' :: 't' :: 'e' :: '=' :: '"' :: 's' :: '"' :: '>' ::x) from by
    simp [brkFree, breakMatchAt, List.isPrefixOf]]
  repeat rw [brkFree_cons_ne _ _ (by decide)]
  exact h

theorem findProsodyTag_sTag (x : List Char) :
    findProsodyTag ("<prosody rate=\"s\">".toList ++ x) = some ("<prosody rate=\"s\">".toList) := by
  simp [findProsodyTag, List.isPrefixOf, takeToGt]

theorem splitBreaks_cons_match (c : Char) (rest : List Char) (p : List Char × List Char)
    (h : breakMatchAt (c :: rest) = some p) :
    splitBreaks (c :: rest) = ([] :: (splitBreaks p.2).1, p.1 :: (splitBreaks p.2).2) := by
  rw [splitBreaks]
  split
  · rename_i q hq
    rw [h] at hq
    cases hq
    rfl
  · rename_i hq
    rw [h] at hq
    cases hq

theorem splitBreaks_cons_none (c : Char) (rest : List Char)
    (h : breakMatchAt (c :: rest) = none) :
    splitBreaks (c :: rest) = ((splitBreaks rest).1.modifyHead (c :: ·), (splitBreaks rest).2) := by
  rw [splitBreaks]
  split
  · rename_i q hq
    rw [h] at hq
    cases hq
  · rfl

theorem breakMatchAt_cons_ne (c : Char) (l : List Char) (h : c ≠ '<') :
    breakMatchAt (c :: l) = none := by
  simp only [breakMatchAt, List.isPrefixOf]
  simp [h.symm]

theorem c5_removeSpeak : removeSpeakTags c5Input = c5Input := by
  unfold c5Input
  rw [show "a<break/>".toList ++ ("<prosody rate=\"s\">".toList ++ (List.replicate 2960 'a' ++ "</prosody>".toList)) = 'a' :: '<' :: 'b' :: 'r' :: 'e' :: 'a' :: 'k' :: '/' :: '>' :: '<' :: 'p' :: 'r' :: 'o' :: 's' :: 'o' :: 'd' :: 'y' :: ' ' :: 'r' :: 'a' :: 't' :: 'e' :: '=' :: '"' :: 's' :: '"' :: '>' ::(List.replicate 2960 'a' ++ "</prosody>".toList) from rfl]
  simp only [show ∀ (x : List Char), removeSpeakTags ('a' :: '<' :: 'b' :: 'r' :: 'e' :: 'a' :: 'k' :: '/' :: '>' :: '<' :: 'p' :: 'r' :: 'o' :: 's' :: 'o' :: 'd' :: 'y' :: ' ' :: 'r' :: 'a' :: 't' :: 'e' :: '=' :: '"' :: 's' :: '"' :: '>' ::x) = 'a' :: '<' :: 'b' :: 'r' :: 'e' :: 'a' :: 'k' :: '/' :: '>' :: '<' :: 'p' :: 'r' :: 'o' :: 's' :: 'o' :: 'd' :: 'y' :: ' ' :: 'r' :: 'a' :: 't' :: 'e' :: '=' :: '"' :: 's' :: '"' :: '>' ::removeSpeakTags x from fun x => by
    simp [removeSpeakTags, List.isPrefixOf]]
  rw [removeSpeakTags_replicate_a]
  rw [show removeSpeakTags ("</prosody>".toList) = "</prosody>".toList from by
    simp [removeSpeakTags, List.isPrefixOf]]

theorem c5_trim : jsTrim c5Input = c5Input := by
  apply jsTrim_eq_self
  · intro c hc
    rw [show c5Input = 'a' :: ('<' :: 'b' :: 'r' :: 'e' :: 'a' :: 'k' :: '/' :: '>' :: '<' :: 'p' :: 'r' :: 'o' :: 's' :: 'o' :: 'd' :: 'y' :: ' ' :: 'r' :: 'a' :: 't' :: 'e' :: '=' :: '"' :: 's' :: '"' :: '>' ::(List.replicate 2960 'a' ++ "</prosody>".toList)) from rfl] at hc
    cases hc; rfl
  · intro c hc
    unfold c5Input at hc
    rw [getLast?_append_right _ _ '>'
      (getLast?_append_right _ _ '>'
        (getLast?_append_right (List.replicate 2960 'a') ("</prosody>".toList) '>' rfl))] at hc
    cases hc; rfl

theorem rateSearch_sTail (x : List Char) :
    rateSearch (' ' :: 'r' :: 'a' :: 't' :: 'e' :: '=' :: '"' :: 's' :: '"' :: '>' ::x) = true := by
  rw [rateSearch]
  rw [show (ciPrefixOf ("rate".toList) (' ' :: 'r' :: 'a' :: 't' :: 'e' :: '=' :: '"' :: 's' :: '"' :: '>' ::x)
      && ((((' ' :: 'r' :: 'a' :: 't' :: 'e' :: '=' :: '"' :: 's' :: '"' :: '>' ::x)).drop 4).dropWhile jsWhitespace).head? == some '=') = false from rfl]
  simp only [Bool.false_eq_true, if_false]
  rw [if_neg (by decide)]
  rw [rateSearch]
  rw [show (ciPrefixOf ("rate".toList) ('r' :: 'a' :: 't' :: 'e' :: '=' :: '"' :: 's' :: '"' :: '>' ::x)
      && (((('r' :: 'a' :: 't' :: 'e' :: '=' :: '"' :: 's' :: '"' :: '>' ::x)).drop 4).dropWhile jsWhitespace).head? == some '=') = true from rfl]
  simp

theorem c5_rate : hasRateCtrl c5Input = true := by
  rw [show c5Input = 'a' :: '<' :: 'b' :: 'r' :: 'e' :: 'a' :: 'k' :: '/' :: '>' :: '<' :: 'p' :: 'r' :: 'o' :: 's' :: 'o' :: 'd' :: 'y' :: ' ' :: 'r' :: 'a' :: 't' :: 'e' :: '=' :: '"' :: 's' :: '"' :: '>' ::(List.replicate 2960 'a' ++ "</prosody>".toList) from rfl]
  simp only [show ∀ (x : List Char), hasRateCtrl ('a' ::x) = hasRateCtrl x from fun x => by
    simp [hasRateCtrl, ciPrefixOf, ciEqChar]]
  rw [show ∀ (x : List Char), hasRateCtrl ('<' :: 'b' :: 'r' :: 'e' :: 'a' :: 'k' :: '/' :: '>' ::x) = hasRateCtrl x from fun x => by
    simp [hasRateCtrl, ciPrefixOf, ciEqChar]]
  rw [hasRateCtrl]
  rw [if_pos (by
    rw [Bool.and_eq_true]
    refine ⟨by decide, ?_⟩
    rw [show (('<' :: 'p' :: 'r' :: 'o' :: 's' :: 'o' :: 'd' :: 'y' :: ' ' :: 'r' :: 'a' :: 't' :: 'e' :: '=' :: '"' :: 's' :: '"' :: '>' ::(List.replicate 2960 'a' ++ "</prosody>".toList)).drop 8) = ' ' :: 'r' :: 'a' :: 't' :: 'e' :: '=' :: '"' :: 's' :: '"' :: '>' ::(List.replicate 2960 'a' ++ "</prosody>".toList) from rfl]
    exact rateSearch_sTail _)]

theorem c5_splitBreaks :
    splitBreaks c5Input =
      ([['a'], "<prosody rate=\"s\">".toList ++ (List.replicate 2960 'a' ++ "</prosody>".toList)],
       ["<break/>".toList]) := by
  rw [show c5Input = 'a' :: ('<' :: 'b' :: 'r' :: 'e' :: 'a' :: 'k' :: '/' :: '>' ::("<prosody rate=\"s\">".toList ++ (List.replicate 2960 'a' ++ "</prosody>".toList))) from rfl]
  rw [splitBreaks_cons_none _ _ (breakMatchAt_cons_ne _ _ (by decide))]
  rw [splitBreaks_cons_match '<' ('b' :: 'r' :: 'e' :: 'a' :: 'k' :: '/' :: '>' ::("<prosody rate=\"s\">".toList ++ (List.replicate 2960 'a' ++ "</prosody>".toList)))
    ("<break/>".toList, "<prosody rate=\"s\">".toList ++ (List.replicate 2960 'a' ++ "</prosody>".toList)) rfl]
  rw [splitBreaks_of_brkFree _ (by
    apply brkFree_sTag
    rw [brkFree_replicate_a]
    decide)]
  rfl

theorem c5_chunk_mem :
    "<speak>a<break/></prosody></speak>".toList ∈ chunkSSMLText c5Input 3000 := by
  have hclean : jsTrim (removeSpeakTags c5Input) = c5Input := by
    rw [c5_removeSpeak, c5_trim]
  have hlen : ((c5Input.length : Int)) = 2997 := by
    unfold c5Input
    simp only [List.length_append, List.length_replicate,
      show ("a<break/>".toList).length = 9 from rfl,
      show ("<prosody rate=\"s\">".toList).length = 18 from rfl,
      show ("</prosody>".toList).length = 10 from rfl]
    norm_num
  rw [chunkSSMLText_expand, hclean, c5_rate]
  simp only [if_true]
  rw [if_neg (by rw [hlen]; decide)]
  rw [show findProsodyTag c5Input = some ("<prosody rate=\"s\">".toList) from by
    rw [show c5Input = 'a' :: '<' :: 'b' :: 'r' :: 'e' :: 'a' :: 'k' :: '/' :: '>' ::("<prosody rate=\"s\">".toList ++ (List.replicate 2960 'a' ++ "</prosody>".toList)) from rfl]
    simp only [show ∀ (x : List Char), findProsodyTag ('a' ::x) = findProsodyTag x from fun x => by
      simp [findProsodyTag, List.isPrefixOf]]
    rw [show ∀ (x : List Char), findProsodyTag ('<' :: 'b' :: 'r' :: 'e' :: 'a' :: 'k' :: '/' :: '>' ::x) = findProsodyTag x from fun x => by
      simp [findProsodyTag, List.isPrefixOf]]
    exact findProsodyTag_sTag _]
  rw [c5_splitBreaks]
  rw [chunkLoop_cons_expand]
  rw [if_neg (by intro hcontra; exact hcontra.2 rfl)]
  simp only [List.headD_cons, List.nil_append]
  rw [if_pos (by decide : ("<break/>".toList : List Char) ≠ [])]
  simp only [List.tail_cons]
  rw [chunkLoop_cons_expand]
  rw [if_pos (by
    constructor
    · have hcand : (['a'] ++ "<break/>".toList ++ ("<prosody rate=\"s\">".toList ++ (List.replicate 2960 'a' ++ "</prosody>".toList)) ++ ([] : List (List Char)).headD []).length = 2997 := by
        simp only [List.headD_nil, List.append_nil, List.length_append, List.length_replicate]
        decide
      rw [hcand]
      decide
    · decide)]
  rw [chunkLoop_nil]
  apply List.mem_append_left
  have h : "<speak>a<break/></prosody></speak>".toList =
      "<speak>".toList ++ (jsTrim (['a'] ++ "<break/>".toList) ++
        (if (["<prosody rate=\"s\">".toList] : List (List Char)) ≠ [] then "</prosody>".toList else [])) ++ "</speak>".toList := by
    decide
  rw [h]
  exact List.mem_cons_self _ _

/-- Claim C5 (code bug): a chunk emitted by `chunkSSMLText` need not be independently valid markup.  On an input that carries its own prosody rate directive, the first mid-split chunk is `<speak>a<break/></prosody></speak>`: it contains one closing prosody tag and no opening one, so not every opened pacing tag is closed exactly once within the chunk. -/
theorem c5_theorem :
    "<speak>a<break/></prosody></speak>".toList ∈ chunkSSMLText c5Input 3000 ∧
    countTag ("<prosody".toList) ("<speak>a<break/></prosody></speak>".toList) = 0 ∧
    countTag ("</prosody".toList) ("<speak>a<break/></prosody></speak>".toList) = 1 :=
  ⟨c5_chunk_mem, by decide, by decide⟩

/-- Claim C1 (counterexample): `chunkSSMLText` with its default maximum payload length 3000 can emit a chunk longer than 3000.  On an input of 2955 letters with no pause markers, the single pause-delimited segment exceeds the safe length and is emitted as one oversized chunk, of length 3001. -/
theorem c1_counterexample :
    ∃ chunk ∈ chunkSSMLText (List.replicate 2955 'a') 3000, 3000 < chunk.length := by
  refine ⟨_, by rw [c1_cex_compute]; exact List.mem_singleton_self _, ?_⟩
  simp only [List.length_append, List.length_replicate,
    show ("<speak>".toList).length = 7 from rfl,
    show ("</speak>".toList).length = 8 from rfl,
    show ("<prosody rate=\"slow\">".toList).length = 21 from rfl,
    show ("</prosody>".toList).length = 10 from rfl]
  omega

theorem c1_hello_rate : hasRateCtrl (jsTrim (removeSpeakTags ("hello".toList))) = false := by
  rw [show ("hello".toList) = 'h' :: 'e' :: 'l' :: 'l' :: 'o' ::[] from rfl]
  rw [show removeSpeakTags ('h' :: 'e' :: 'l' :: 'l' :: 'o' ::[]) = 'h' :: 'e' :: 'l' :: 'l' :: 'o' ::[] from by
    simp [removeSpeakTags, List.isPrefixOf]]
  decide

theorem c1_hello_split :
    splitBreaks (slowWrapped ("hello".toList)) =
      ([slowWrapped ("hello".toList)], []) := by
  apply splitBreaks_of_brkFree
  unfold slowWrapped
  rw [show removeSpeakTags ("hello".toList) = "hello".toList from by
    rw [show ("hello".toList) = 'h' :: 'e' :: 'l' :: 'l' :: 'o' ::[] from rfl]
    simp [removeSpeakTags, List.isPrefixOf]]
  rw [show jsTrim ("hello".toList) = "hello".toList from rfl]
  rw [List.append_assoc]
  apply brkFree_slowtag
  decide

theorem c1_hello_fit :
    ∀ i, 22 + ((splitBreaks (slowWrapped ("hello".toList))).1.getD i []).length
        + ((splitBreaks (slowWrapped ("hello".toList))).2.getD i []).length ≤ 2954 := by
  intro i
  rw [c1_hello_split]
  cases i with
  | zero =>
    simp only [List.getD_cons_zero]
    have : (slowWrapped ("hello".toList)).length ≤ 60 := by
      unfold slowWrapped
      rw [show removeSpeakTags ("hello".toList) = "hello".toList from by
        rw [show ("hello".toList) = 'h' :: 'e' :: 'l' :: 'l' :: 'o' ::[] from rfl]
        simp [removeSpeakTags, List.isPrefixOf]]
      rw [show jsTrim ("hello".toList) = "hello".toList from rfl]
      decide
    have h2 : (([] : List (List Char)).getD 0 []).length = 0 := by simp
    omega
  | succ n =>
    simp only [List.getD_cons_succ]
    have h1 : (([] : List (List Char)).getD n []).length = 0 := by simp
    have h2 : (([] : List (List Char)).getD (n+1) []).length = 0 := by simp
    omega

/-- Witness for the amended claim C1, at the concrete input `hello`. -/
theorem c1_witness :
    hasRateCtrl (jsTrim (removeSpeakTags ("hello".toList))) = false ∧
    (∀ i, 22 + ((splitBreaks (slowWrapped ("hello".toList))).1.getD i []).length
        + ((splitBreaks (slowWrapped ("hello".toList))).2.getD i []).length ≤ 2954) ∧
    (∀ chunk ∈ chunkSSMLText ("hello".toList) 3000, chunk.length ≤ 3000) :=
  ⟨c1_hello_rate, c1_hello_fit, c1_theorem _ c1_hello_rate c1_hello_fit⟩

/-- Claim C3: for every measured speech duration and every random draw in the interval from 0 inclusive to 1 exclusive, `selectRandomMusicTrack` returns the path of a catalog entry whose duration strictly exceeds the speech duration whenever at least one entry qualifies, and returns `none` exactly when no entry qualifies. -/
theorem c3_theorem (d rand : ℚ) (h0 : 0 ≤ rand) (h1 : rand < 1) :
    ((∃ t ∈ musicTracks, d < t.2) →
      ∃ t ∈ musicTracks, d < t.2 ∧ selectRandomMusicTrack rand d = some t.1) ∧
    ((∀ t ∈ musicTracks, t.2 ≤ d) → selectRandomMusicTrack rand d = none) := by
  constructor
  · rintro ⟨t0, ht0, hd0⟩
    have hmem : t0 ∈ musicTracks.filter (fun track => decide (d < track.2)) := by
      rw [List.mem_filter]
      exact ⟨ht0, by simpa using hd0⟩
    have hne : (musicTracks.filter (fun track => decide (d < track.2))).length ≠ 0 := by
      intro hzero
      rw [List.length_eq_zero] at hzero
      rw [hzero] at hmem
      cases hmem
    have hpos : 0 < (musicTracks.filter (fun track => decide (d < track.2))).length :=
      Nat.pos_of_ne_zero hne
    set suit := musicTracks.filter (fun track => decide (d < track.2)) with hsuit
    have hidx : (⌊rand * suit.length⌋).toNat < suit.length := by
      have hlenpos : (0 : ℚ) < suit.length := by exact_mod_cast hpos
      have hlt : rand * suit.length < suit.length := by
        calc rand * suit.length < 1 * suit.length := by
              exact mul_lt_mul_of_pos_right h1 hlenpos
          _ = suit.length := one_mul _
      have hfl : ⌊rand * (suit.length : ℚ)⌋ < (suit.length : ℤ) := by
        apply Int.floor_lt.mpr
        push_cast
        exact hlt
      have hnn : 0 ≤ ⌊rand * (suit.length : ℚ)⌋ :=
        Int.floor_nonneg.mpr (mul_nonneg h0 (le_of_lt hlenpos))
      omega
    have hget : suit.getD (⌊rand * suit.length⌋).toNat ("", 0) ∈ suit := by
      rw [List.getD_eq_getElem?_getD, List.getElem?_eq_getElem hidx]
      exact List.getElem_mem _
    have hsel : suit.getD (⌊rand * suit.length⌋).toNat ("", 0) ∈ musicTracks ∧
        decide (d < (suit.getD (⌊rand * suit.length⌋).toNat ("", 0)).2) = true := by
      have := hget
      rw [hsuit, List.mem_filter] at this
      exact this
    refine ⟨suit.getD (⌊rand * suit.length⌋).toNat ("", 0), hsel.1, by simpa using hsel.2, ?_⟩
    unfold selectRandomMusicTrack
    rw [show (musicTracks.filter (fun track => d < track.2)) = suit from rfl]
    rw [if_neg hne]
  · intro hall
    unfold selectRandomMusicTrack
    have : musicTracks.filter (fun track => d < track.2) = [] := by
      apply List.filter_eq_nil_iff.mpr
      intro t ht
      simpa using hall t ht
    rw [this]
    simp

/-- Witness for claim C3, at duration 310 and random draw one half. -/
theorem c3_witness :
    (0 : ℚ) ≤ 1/2 ∧ (1/2 : ℚ) < 1 ∧
    (∃ t ∈ musicTracks, (310 : ℚ) < t.2 ∧ selectRandomMusicTrack (1/2) 310 = some t.1) :=
  ⟨by norm_num, by norm_num,
    (c3_theorem 310 (1/2) (by norm_num) (by norm_num)).1
      ⟨("backing-track-3.mp3", 480), by simp [musicTracks], by norm_num⟩⟩

/-- Claim C10: if the creation-failed lambda's body-extraction cascade yields a value with no truthy `sessionID`, the handler returns status 400 and performs no session-store update. -/
theorem c10_theorem (parse : JsVal → Option JsVal) (dynamoOk : Bool)
    (event eventBody : JsVal)
    (hbody : cfExtractBody parse event = some eventBody)
    (hsid : truthy (getField eventBody "sessionID") = false) :
    creationFailedHandler parse dynamoOk event = ⟨some 400, []⟩ := by
  unfold creationFailedHandler
  rw [hbody]
  simp [hsid]

/-- Witness for claim C10, with the payload's `input` field a plain string. -/
theorem c10_witness :
    cfExtractBody (fun _ => none) (.obj [("input", .str "not an object")]) =
      some (.str "not an object") ∧
    truthy (getField (JsVal.str "not an object") "sessionID") = false ∧
    creationFailedHandler (fun _ => none) true (.obj [("input", .str "not an object")]) =
      ⟨some 400, []⟩ :=
  ⟨rfl, rfl, c10_theorem _ _ _ _ rfl rfl⟩

theorem synthLoop_none (polly : List Char → PollyResult) (l : List (List Char))
    (h : ∃ c ∈ l, (polly c).isOk = false) : (synthLoop polly l).2 = none := by
  induction l with
  | nil => simp at h
  | cons c cs ih =>
    rcases h with ⟨c0, hc0, hfail⟩
    rw [synthLoop]
    rcases List.mem_cons.mp hc0 with h1 | h1
    · subst h1
      cases hp : polly c0 <;> simp_all [PollyResult.isOk]
    · cases hp : polly c
      case ok bytes =>
        simp only
        rw [ih ⟨c0, h1, hfail⟩]
        rfl
      case noStream => rfl
      case err => rfl

theorem synthLoop_some_all (polly : List Char → PollyResult) (l : List (List Char))
    (bufs : List (List Nat)) (h : (synthLoop polly l).2 = some bufs) :
    ∀ c ∈ l, (polly c).isOk = true := by
  induction l generalizing bufs with
  | nil => simp
  | cons c cs ih =>
    rw [synthLoop] at h
    intro d hd
    rcases List.mem_cons.mp hd with h1 | h1
    · subst h1
      cases hp : polly d <;> simp_all [PollyResult.isOk]
    · cases hp : polly c <;> simp only [hp] at h
      case ok bytes =>
        rcases Option.map_eq_some'.mp h with ⟨bufs', hb', _⟩
        exact ih bufs' hb' d h1
      all_goals cases h

theorem synthLoop_all_ok (polly : List Char → PollyResult) (f : List Char → List Nat)
    (l : List (List Char)) (h : ∀ c ∈ l, polly c = .ok (f c)) :
    synthLoop polly l = (l, some (l.map f)) := by
  induction l with
  | nil => rfl
  | cons c cs ih =>
    rw [synthLoop, h c (by simp), ih (fun d hd => h d (by simp [hd]))]
    rfl

/-- Claim C4: in the text-to-speech handler, if the speech engine throws or returns no audio stream for any chunk, the whole synthesis fails - the handler returns a 500 and persists nothing to storage; conversely, an artifact is written only when every chunk synthesised successfully. -/
theorem c4_theorem (parse : JsVal → Option JsVal) (polly : List Char → PollyResult)
    (putOk : Bool) (currentDate : String) (event body : JsVal) (script : String)
    (hbody : (if truthy (getField event "body") then parse (getField event "body") else some (.obj [])) = some body)
    (huser : truthy (getField body "userID") = true)
    (hsess : truthy (getField body "sessionID") = true)
    (hscript : getField body "script" = .str script)
    (hne : jsTrim script.toList ≠ []) :
    ((∃ c ∈ chunkSSMLText (normalizeScript script.toList) 3000, (polly c).isOk = false) →
      (ttsHandler parse polly putOk currentDate event).statusCode = 500 ∧
      (ttsHandler parse polly putOk currentDate event).s3Writes = []) ∧
    ((ttsHandler parse polly putOk currentDate event).s3Writes ≠ [] →
      ∀ c ∈ chunkSSMLText (normalizeScript script.toList) 3000, (polly c).isOk = true) := by
  have hred : ttsHandler parse polly putOk currentDate event =
      (match (synthLoop polly (chunkSSMLText (normalizeScript script.toList) 3000)).2 with
        | none => ⟨500, [], (synthLoop polly (chunkSSMLText (normalizeScript script.toList) 3000)).1⟩
        | some audioBuffers =>
          if putOk then
            ⟨200,
             [(jsDisplay (getField body "userID") ++ "/" ++ currentDate ++ "/" ++
                 jsDisplay (getField body "sessionID") ++ ".mp3",
               audioBuffers.flatten)],
             (synthLoop polly (chunkSSMLText (normalizeScript script.toList) 3000)).1⟩
          else ⟨500, [], (synthLoop polly (chunkSSMLText (normalizeScript script.toList) 3000)).1⟩) := by
    unfold ttsHandler
    rw [hbody]
    simp only [huser, hsess, Bool.true_eq_false, or_self, if_false, hscript]
    rw [if_neg hne]
  constructor
  · intro hfail
    rw [hred, synthLoop_none polly _ hfail]
    exact ⟨rfl, rfl⟩
  · intro hw
    rw [hred] at hw
    cases hsyn : (synthLoop polly (chunkSSMLText (normalizeScript script.toList) 3000)).2 with
    | none => rw [hsyn] at hw; simp at hw
    | some bufs =>
      intro c hc
      exact synthLoop_some_all polly _ bufs hsyn c hc

/-- Claim C7: on a successful synthesis run, the speech engine is invoked once per chunk, sequentially in the chunker's emission order, and the persisted speech artifact is the byte-concatenation of the per-chunk outputs in exactly that order. -/
theorem c7_theorem (parse : JsVal → Option JsVal) (polly : List Char → PollyResult)
    (currentDate : String) (event body : JsVal) (u sid script : String)
    (f : List Char → List Nat)
    (hbody : (if truthy (getField event "body") then parse (getField event "body") else some (.obj [])) = some body)
    (huser : getField body "userID" = .str u) (hu : u ≠ "")
    (hsess : getField body "sessionID" = .str sid) (hs : sid ≠ "")
    (hscript : getField body "script" = .str script)
    (hne : jsTrim script.toList ≠ [])
    (hok : ∀ c ∈ chunkSSMLText (normalizeScript script.toList) 3000, polly c = .ok (f c)) :
    ttsHandler parse polly true currentDate event =
      ⟨200,
       [(u ++ "/" ++ currentDate ++ "/" ++ sid ++ ".mp3",
         ((chunkSSMLText (normalizeScript script.toList) 3000).map f).flatten)],
       chunkSSMLText (normalizeScript script.toList) 3000⟩ := by
  unfold ttsHandler
  rw [hbody]
  simp only [huser, hsess, hscript]
  rw [show truthy (.str u) = true from by simp [truthy, bne_iff_ne, hu]]
  rw [show truthy (.str sid) = true from by simp [truthy, bne_iff_ne, hs]]
  simp only [Bool.true_eq_false, or_self, if_false]
  rw [if_neg hne]
  rw [synthLoop_all_ok polly f _ hok]
  rfl

theorem chunkSSMLText_single (ssml : List Char)
    (hrate : hasRateCtrl (jsTrim (removeSpeakTags ssml)) = false)
    (hlen : ((slowWrapped ssml).length : Int) ≤ 2954) :
    chunkSSMLText ssml 3000 =
      ["<speak>".toList ++ slowWrapped ssml ++ "</speak>".toList] := by
  rw [chunkSSMLText_expand, hrate]
  simp only [Bool.false_eq_true, if_false]
  rw [if_pos (by
    rw [show ((3000 : Nat) : Int) - (("<speak></speak>".toList).length : Int)
        - (("<prosody rate=\"slow\"></prosody>".toList).length : Int) = 2954 from by decide]
    unfold slowWrapped at hlen
    exact hlen)]
  rfl

theorem hello_clean : jsTrim (removeSpeakTags ("hello".toList)) = "hello".toList := by
  rw [show removeSpeakTags ("hello".toList) = "hello".toList from by
    rw [show ("hello".toList) = 'h' :: 'e' :: 'l' :: 'l' :: 'o' ::[] from rfl]
    simp [removeSpeakTags, List.isPrefixOf]]
  rfl

theorem hello_wrapped_len : (((slowWrapped ("hello".toList)).length : Nat) : Int) ≤ 2954 := by
  unfold slowWrapped
  rw [hello_clean]
  decide

theorem hello_chunks :
    chunkSSMLText (normalizeScript ("hello".toList)) 3000 =
      ["<speak>".toList ++ slowWrapped ("hello".toList) ++ "</speak>".toList] := by
  rw [show normalizeScript ("hello".toList) = "hello".toList from rfl]
  exact chunkSSMLText_single _ c1_hello_rate hello_wrapped_len

/-- Witness for claim C4, with a speech engine that returns no audio stream. -/
theorem c4_witness :
    (∃ c ∈ chunkSSMLText (normalizeScript ("hello".toList)) 3000,
        ((fun _ => PollyResult.noStream) c).isOk = false) ∧
    (ttsHandler
        (fun _ => some (.obj [("userID", .str "u1"), ("sessionID", .str "s1"), ("script", .str "hello")]))
        (fun _ => PollyResult.noStream) true "2025-06-01" (.obj [("body", .str "B")])).statusCode = 500 ∧
    (ttsHandler
        (fun _ => some (.obj [("userID", .str "u1"), ("sessionID", .str "s1"), ("script", .str "hello")]))
        (fun _ => PollyResult.noStream) true "2025-06-01" (.obj [("body", .str "B")])).s3Writes = [] := by
  have hfail : ∃ c ∈ chunkSSMLText (normalizeScript ("hello".toList)) 3000,
      ((fun _ => PollyResult.noStream) c).isOk = false := by
    rw [hello_chunks]
    exact ⟨_, List.mem_singleton_self _, rfl⟩
  have h := (c4_theorem
    (fun _ => some (.obj [("userID", .str "u1"), ("sessionID", .str "s1"), ("script", .str "hello")]))
    (fun _ => PollyResult.noStream) true "2025-06-01"
    (.obj [("body", .str "B")])
    (.obj [("userID", .str "u1"), ("sessionID", .str "s1"), ("script", .str "hello")])
    "hello" rfl rfl rfl rfl (by decide)).1 hfail
  exact ⟨hfail, h.1, h.2⟩

/-- Witness for claim C7, with a speech engine returning a fixed buffer. -/
theorem c7_witness :
    ttsHandler
        (fun _ => some (.obj [("userID", .str "u1"), ("sessionID", .str "s1"), ("script", .str "hello")]))
        (fun _ => PollyResult.ok [7]) true "2025-06-01" (.obj [("body", .str "B")]) =
      ⟨200,
       [("u1" ++ "/" ++ "2025-06-01" ++ "/" ++ "s1" ++ ".mp3",
         ((chunkSSMLText (normalizeScript ("hello".toList)) 3000).map (fun _ => [7])).flatten)],
       chunkSSMLText (normalizeScript ("hello".toList)) 3000⟩ :=
  c7_theorem
    (fun _ => some (.obj [("userID", .str "u1"), ("sessionID", .str "s1"), ("script", .str "hello")]))
    (fun _ => PollyResult.ok [7]) "2025-06-01"
    (.obj [("body", .str "B")])
    (.obj [("userID", .str "u1"), ("sessionID", .str "s1"), ("script", .str "hello")])
    "u1" "s1" "hello" (fun _ => [7])
    rfl rfl (by decide) rfl (by decide) rfl (by decide) (fun c _ => rfl)

/-- Claim C9 (code bug): the mixing handler removes its temporary directories only on the full success path.  At a concrete input where no backing track is long enough for the measured speech duration, it returns a 400 with the speech, music and output directories still in place. -/
theorem c9_theorem :
    joinHandler
      (fun _ => some (.obj [("sessionID", .str "s1"), ("userID", .str "u1"),
        ("speechAudioPath", .str "u1/2025-06-01/s1.mp3")]))
      ⟨true, true, true, 700, 0, true, true, true, true, true⟩
      (.obj [("body", .str "B")]) =
      ⟨400, "No suitable music track found for speech duration", [],
        ["speechDir", "musicDir", "outputDir"]⟩ := by
  decide

theorem cf_on_failpayload (parse : JsVal → Option JsVal) (err scv : JsVal)
    (execInput : JsVal) (sid : String)
    (hsid : getField execInput "sessionID" = .str sid) (hs : sid ≠ "")
    (hnobody : getField execInput "body" = .undef) :
    creationFailedHandler parse true
      (.obj [("error", err), ("statusCode", scv), ("input", execInput)]) =
      ⟨some 200, [(sid, .failed)]⟩ := by
  have hobj : ∃ fs, execInput = .obj fs := by
    cases execInput
    case obj fs => exact ⟨fs, rfl⟩
    all_goals (simp [getField] at hsid)
  rcases hobj with ⟨fs, rfl⟩
  have hext : cfExtractBody parse
      (.obj [("error", err), ("statusCode", scv), ("input", .obj fs)]) = some (.obj fs) := by
    unfold cfExtractBody
    rw [show getField (.obj [("error", err), ("statusCode", scv), ("input", .obj fs)]) "body" = .undef from rfl]
    rw [show getField (.obj [("error", err), ("statusCode", scv), ("input", .obj fs)]) "input" = .obj fs from rfl]
    rw [hnobody]
    rw [show truthy JsVal.undef = false from rfl]
    simp only [Bool.false_eq_true, if_false, Bool.and_false]
    rw [show truthy (JsVal.obj fs) = true from rfl]
    simp
  unfold creationFailedHandler
  rw [hext]
  simp only
  rw [hsid]
  rw [show truthy (JsVal.str sid) = true from by simp [truthy, bne_iff_ne, hs]]
  simp

theorem handleFailure_resp (parse : JsVal → Option JsVal) (execInput : JsVal) (sid : String)
    (sc : Int) (body : String)
    (hsid : getField execInput "sessionID" = .str sid) (hs : sid ≠ "")
    (hnobody : getField execInput "body" = .undef) :
    handleFailure parse true execInput (stageResponseJs sc body) =
      ⟨[.handlerInvoked (.obj [("error", .str body), ("statusCode", .num sc), ("input", execInput)]),
        .sessionUpdate sid .failed], .failed⟩ := by
  unfold handleFailure
  rw [show lookupField (stageResponseJs sc body) "body" = some (.str body) from rfl]
  rw [show lookupField (stageResponseJs sc body) "statusCode" = some (.num sc) from rfl]
  simp only
  rw [cf_on_failpayload parse _ _ execInput sid hsid hs hnobody]
  rfl

theorem joinValidated_updates_cases (env : JoinEnv) (eventBody : JsVal) :
    (joinValidated env eventBody).updates = [] ∨
    ((joinValidated env eventBody).statusCode = 200 ∧
      ∃ sid, (joinValidated env eventBody).updates = [(sid, .completed)]) := by
  unfold joinValidated
  by_cases h1 : truthy (getField eventBody "userID") = false
  · rw [if_pos h1]; left; rfl
  · rw [if_neg h1]
    by_cases h2 : truthy (getField eventBody "sessionID") = false
    · rw [if_pos h2]; left; rfl
    · rw [if_neg h2]
      by_cases h3 : truthy (getField eventBody "speechAudioPath") = false
      · rw [if_pos h3]; left; rfl
      · rw [if_neg h3]
        by_cases h4 : env.bucketsSet = false
        · rw [if_pos h4]; left; rfl
        · rw [if_neg h4]
          by_cases h5 : env.speechGetOk = false
          · rw [if_pos h5]; left; rfl
          · rw [if_neg h5]
            by_cases h6 : env.probeOk = false
            · rw [if_pos h6]; left; rfl
            · rw [if_neg h6]
              cases hT : selectRandomMusicTrack env.rand env.duration with
              | none => left; rfl
              | some track =>
                by_cases h7 : env.musicGetOk = false
                · rw [if_pos h7]; left; rfl
                · rw [if_neg h7]
                  by_cases h8 : env.ffmpegOk = false
                  · rw [if_pos h8]; left; rfl
                  · rw [if_neg h8]
                    by_cases h9 : env.putOk = false
                    · rw [if_pos h9]; left; rfl
                    · rw [if_neg h9]
                      by_cases h10 : env.dynamoOk = false
                      · rw [if_pos h10]; left; rfl
                      · rw [if_neg h10]
                        cases hS : getField eventBody "sessionID" with
                        | str sid => right; exact ⟨rfl, sid, rfl⟩
                        | undef => left; rfl
                        | nullv => left; rfl
                        | bool b => left; rfl
                        | num n => left; rfl
                        | obj fs => left; rfl

theorem joinHandler_updates_cases (parse : JsVal → Option JsVal) (env : JoinEnv) (event : JsVal) :
    (joinHandler parse env event).updates = [] ∨
    ((joinHandler parse env event).statusCode = 200 ∧
      ∃ sid, (joinHandler parse env event).updates = [(sid, .completed)]) := by
  unfold joinHandler
  split
  · left; rfl
  · exact joinValidated_updates_cases env _

theorem joinHandler_non200_updates (parse : JsVal → Option JsVal) (env : JoinEnv) (event : JsVal)
    (h : (joinHandler parse env event).statusCode ≠ 200) :
    (joinHandler parse env event).updates = [] := by
  rcases joinHandler_updates_cases parse env event with h1 | h1
  · exact h1
  · exact absurd h1.1 h

/-- Claim C2 (amended): whenever a stage reports a non-200 result, the run diverts to the single shared failure handler, which receives the original execution input together with the failing stage's body and status code, sets the Session to FAILED, and the run terminates in the failed state without starting any later stage.  A thrown stage fault instead terminates the run with `States.Runtime` before the handler performs anything. -/
theorem c2_theorem (parse : JsVal → Option JsVal) (execInput : JsVal) (sid : String)
    (tts : StageOutcome) (jenv : JoinEnv) (joinCrash : Option (String × String))
    (hsid : getField execInput "sessionID" = .str sid) (hs : sid ≠ "")
    (hnobody : getField execInput "body" = .undef) :
    (∀ sc body, sc ≠ 200 →
      runWorkflow parse true execInput (.ret sc body) tts jenv joinCrash =
        ⟨[.stageStart "GenerateScript",
          .handlerInvoked (.obj [("error", .str body), ("statusCode", .num sc), ("input", execInput)]),
          .sessionUpdate sid .failed], .failed⟩) ∧
    (∀ body sc2 body2, sc2 ≠ 200 →
      runWorkflow parse true execInput (.ret 200 body) (.ret sc2 body2) jenv joinCrash =
        ⟨[.stageStart "GenerateScript", .stageStart "TextToSpeech",
          .handlerInvoked (.obj [("error", .str body2), ("statusCode", .num sc2), ("input", execInput)]),
          .sessionUpdate sid .failed], .failed⟩) ∧
    (∀ body body2, (joinHandler parse jenv (stageResponseJs 200 body2)).statusCode ≠ 200 →
      runWorkflow parse true execInput (.ret 200 body) (.ret 200 body2) jenv none =
        ⟨[.stageStart "GenerateScript", .stageStart "TextToSpeech", .stageStart "JoinAudio",
          .handlerInvoked (.obj [("error", .str (joinHandler parse jenv (stageResponseJs 200 body2)).body),
            ("statusCode", .num (joinHandler parse jenv (stageResponseJs 200 body2)).statusCode),
            ("input", execInput)]),
          .sessionUpdate sid .failed], .failed⟩) ∧
    (∀ e c,
      runWorkflow parse true execInput (.threw e c) tts jenv joinCrash =
        ⟨[.stageStart "GenerateScript"], .runtimeFailed⟩) := by
  refine ⟨?_, ?_, ?_, ?_⟩
  · intro sc body hsc
    simp only [runWorkflow]
    rw [if_neg hsc]
    rw [handleFailure_resp parse execInput sid sc body hsid hs hnobody]
  · intro body sc2 body2 hsc2
    simp only [runWorkflow]
    simp only [if_true]
    rw [if_neg hsc2]
    rw [handleFailure_resp parse execInput sid sc2 body2 hsid hs hnobody]
  · intro body body2 hj
    simp only [runWorkflow]
    rw [if_neg hj]
    rw [joinHandler_non200_updates parse jenv _ hj]
    rw [handleFailure_resp parse execInput sid _ _ hsid hs hnobody]
    rfl

  · intro e c
    simp only [runWorkflow]
    rfl

/-- Claim C2 (counterexample): when a stage throws, `addCatch` hands the `Error`/`Cause` object to the shared failure-handler task, whose payload paths `$.body` and `$.statusCode` do not resolve on it; the execution fails with `States.Runtime` without ever invoking the creation-failed lambda, so the Session is never set to FAILED. -/
theorem c2_counterexample :
    runWorkflow (fun _ => none) true (.obj [("userID", .str "u1"), ("sessionID", .str "s1")])
        (.threw "Error" "boom") (.ret 200 "x")
        ⟨true, true, true, 100, 0, true, true, true, true, true⟩ none =
      ⟨[.stageStart "GenerateScript"], .runtimeFailed⟩ ∧
    (∀ p, WfEvent.handlerInvoked p ∉ [WfEvent.stageStart "GenerateScript"]) ∧
    (∀ sid st, WfEvent.sessionUpdate sid st ∉ [WfEvent.stageStart "GenerateScript"]) := by
  refine ⟨rfl, ?_, ?_⟩
  · intro p
    simp
  · intro sid st
    simp

/-- Witness for the amended claim C2, with the script stage returning 500. -/
theorem c2_witness :
    getField (JsVal.obj [("userID", .str "u1"), ("sessionID", .str "s1")]) "sessionID" = .str "s1" ∧
    runWorkflow (fun _ => none) true (.obj [("userID", .str "u1"), ("sessionID", .str "s1")])
        (.ret 500 "script failed") (.ret 200 "x")
        ⟨true, true, true, 100, 0, true, true, true, true, true⟩ none =
      ⟨[.stageStart "GenerateScript",
        .handlerInvoked (.obj [("error", .str "script failed"), ("statusCode", .num 500),
          ("input", .obj [("userID", .str "u1"), ("sessionID", .str "s1")])]),
        .sessionUpdate "s1" .failed], .failed⟩ := by
  refine ⟨rfl, ?_⟩
  exact (c2_theorem (fun _ => none)
    (.obj [("userID", .str "u1"), ("sessionID", .str "s1")]) "s1" (.ret 200 "x")
    ⟨true, true, true, 100, 0, true, true, true, true, true⟩ none rfl (by decide) rfl).1
    500 "script failed" (by decide)

theorem cf_updates_form (parse : JsVal → Option JsVal) (dynamoOk : Bool) (event : JsVal) :
    (creationFailedHandler parse dynamoOk event).updates = [] ∨
    ∃ sid, (creationFailedHandler parse dynamoOk event).updates = [(sid, .failed)] := by
  unfold creationFailedHandler
  cases hE : cfExtractBody parse event with
  | none => left; rfl
  | some eb =>
    dsimp only
    by_cases h1 : truthy (getField eb "sessionID") = false
    · rw [if_pos h1]; left; rfl
    · rw [if_neg h1]
      cases hS : getField eb "sessionID" with
      | str sid =>
        dsimp only
        by_cases hd : dynamoOk
        · rw [if_pos hd]; right; exact ⟨sid, rfl⟩
        · rw [if_neg hd]; left; rfl
      | undef => left; rfl
      | nullv => left; rfl
      | bool b => left; rfl
      | num n => left; rfl
      | obj fs => left; rfl

theorem handleFailure_events_form (parse : JsVal → Option JsVal) (dynamoOk : Bool)
    (execInput state : JsVal) :
    (handleFailure parse dynamoOk execInput state).events = [] ∨
    (∃ p us, (handleFailure parse dynamoOk execInput state).events = .handlerInvoked p :: us ∧
      us.length ≤ 1 ∧ ∀ e ∈ us, ∃ sid, e = .sessionUpdate sid .failed) := by
  unfold handleFailure
  cases hb : lookupField state "body" with
  | none => left; rfl
  | some b =>
    cases hsc : lookupField state "statusCode" with
    | none => left; rfl
    | some sc =>
      right
      refine ⟨_, _, rfl, ?_, ?_⟩
      · rcases cf_updates_form parse dynamoOk
            (.obj [("error", b), ("statusCode", sc), ("input", execInput)]) with h | ⟨sid, h⟩ <;>
          simp [h]
      · rcases cf_updates_form parse dynamoOk
            (.obj [("error", b), ("statusCode", sc), ("input", execInput)]) with h | ⟨sid, h⟩ <;>
          simp [h]

theorem runWorkflow_events_form (parse : JsVal → Option JsVal) (cfOk : Bool) (execInput : JsVal)
    (gs tts : StageOutcome) (jenv : JoinEnv) (jc : Option (String × String)) :
    ∃ starts rest,
      (runWorkflow parse cfOk execInput gs tts jenv jc).events = starts ++ rest ∧
      (∀ e ∈ starts, ∃ n, e = .stageStart n) ∧
      (rest = [] ∨
       (∃ sid, rest = [.sessionUpdate sid .completed]) ∨
       (∃ p us, rest = .handlerInvoked p :: us ∧ us.length ≤ 1 ∧
         ∀ e ∈ us, ∃ sid, e = .sessionUpdate sid .failed)) := by
  cases gs with
  | threw e c =>
    rcases handleFailure_events_form parse cfOk execInput
        (.obj [("Error", .str e), ("Cause", .str c)]) with h | ⟨p, us, h, hlen, hus⟩
    · refine ⟨[.stageStart "GenerateScript"], [], ?_, by simp, Or.inl rfl⟩
      simp only [runWorkflow, h]
      rfl
    · refine ⟨[.stageStart "GenerateScript"], _, ?_, by simp,
        Or.inr (Or.inr ⟨p, us, rfl, hlen, hus⟩)⟩
      simp only [runWorkflow, h]
      rfl
  | ret sc body =>
    by_cases hsc : sc = 200
    · subst hsc
      cases tts with
      | threw e c =>
        rcases handleFailure_events_form parse cfOk execInput
            (.obj [("Error", .str e), ("Cause", .str c)]) with h | ⟨p, us, h, hlen, hus⟩
        · refine ⟨[.stageStart "GenerateScript", .stageStart "TextToSpeech"], [], ?_, by simp,
            Or.inl rfl⟩
          simp only [runWorkflow, if_pos rfl, h]
          rfl
        · refine ⟨[.stageStart "GenerateScript", .stageStart "TextToSpeech"], _, ?_, by simp,
            Or.inr (Or.inr ⟨p, us, rfl, hlen, hus⟩)⟩
          simp only [runWorkflow, if_pos rfl, h]
          rfl
      | ret sc2 body2 =>
        by_cases hsc2 : sc2 = 200
        · subst hsc2
          cases jc with
          | some ec =>
            rcases handleFailure_events_form parse cfOk execInput
                (.obj [("Error", .str ec.1), ("Cause", .str ec.2)]) with h | ⟨p, us, h, hlen, hus⟩
            · refine ⟨[.stageStart "GenerateScript", .stageStart "TextToSpeech",
                .stageStart "JoinAudio"], [], ?_, by simp, Or.inl rfl⟩
              simp only [runWorkflow, if_pos rfl, h]
              rfl
            · refine ⟨[.stageStart "GenerateScript", .stageStart "TextToSpeech",
                .stageStart "JoinAudio"], _, ?_, by simp,
                Or.inr (Or.inr ⟨p, us, rfl, hlen, hus⟩)⟩
              simp only [runWorkflow, if_pos rfl, h]
              rfl
          | none =>
            by_cases hj : (joinHandler parse jenv (stageResponseJs 200 body2)).statusCode = 200
            · rcases joinHandler_updates_cases parse jenv (stageResponseJs 200 body2) with
                hup | ⟨_, sid, hup⟩
              · refine ⟨[.stageStart "GenerateScript", .stageStart "TextToSpeech",
                  .stageStart "JoinAudio"], [], ?_, by simp, Or.inl rfl⟩
                simp only [runWorkflow, if_pos rfl, if_pos hj, hup]
                rfl
              · refine ⟨[.stageStart "GenerateScript", .stageStart "TextToSpeech",
                  .stageStart "JoinAudio"], [.sessionUpdate sid .completed], ?_, by simp,
                  Or.inr (Or.inl ⟨sid, rfl⟩)⟩
                simp only [runWorkflow, if_pos rfl, if_pos hj, hup]
                rfl
            · have hup := joinHandler_non200_updates parse jenv (stageResponseJs 200 body2) hj
              rcases handleFailure_events_form parse cfOk execInput
                  (stageResponseJs (joinHandler parse jenv (stageResponseJs 200 body2)).statusCode
                    (joinHandler parse jenv (stageResponseJs 200 body2)).body) with
                h | ⟨p, us, h, hlen, hus⟩
              · refine ⟨[.stageStart "GenerateScript", .stageStart "TextToSpeech",
                  .stageStart "JoinAudio"], [], ?_, by simp, Or.inl rfl⟩
                simp only [runWorkflow, if_pos rfl, if_neg hj, hup, h]
                rfl
              · refine ⟨[.stageStart "GenerateScript", .stageStart "TextToSpeech",
                  .stageStart "JoinAudio"], _, ?_, by simp,
                  Or.inr (Or.inr ⟨p, us, rfl, hlen, hus⟩)⟩
                simp only [runWorkflow, if_pos rfl, if_neg hj, hup, h]
                rfl
        · rcases handleFailure_events_form parse cfOk execInput
              (stageResponseJs sc2 body2) with h | ⟨p, us, h, hlen, hus⟩
          · refine ⟨[.stageStart "GenerateScript", .stageStart "TextToSpeech"], [], ?_, by simp,
              Or.inl rfl⟩
            simp only [runWorkflow, if_pos rfl, if_neg hsc2, h]
            rfl
          · refine ⟨[.stageStart "GenerateScript", .stageStart "TextToSpeech"], _, ?_, by simp,
              Or.inr (Or.inr ⟨p, us, rfl, hlen, hus⟩)⟩
            simp only [runWorkflow, if_pos rfl, if_neg hsc2, h]
            rfl
    · rcases handleFailure_events_form parse cfOk execInput
          (stageResponseJs sc body) with h | ⟨p, us, h, hlen, hus⟩
      · refine ⟨[.stageStart "GenerateScript"], [], ?_, by simp, Or.inl rfl⟩
        simp only [runWorkflow, if_neg hsc, h]
        rfl
      · refine ⟨[.stageStart "GenerateScript"], _, ?_, by simp,
          Or.inr (Or.inr ⟨p, us, rfl, hlen, hus⟩)⟩
        simp only [runWorkflow, if_neg hsc, h]
        rfl

theorem statusMonotone_of_short (xs : List SessionStatus) (h : xs.length ≤ 1) :
    StatusMonotone (.requested :: xs) := by
  intro i hi hterm
  simp only [List.length_cons] at hi
  have hi0 : i = 0 := by omega
  subst hi0
  simp only [List.getD_cons_zero] at hterm
  rcases hterm with h0 | h0 <;> exact absurd h0 (by decide)

theorem wfUpdates_len (parse : JsVal → Option JsVal) (cfOk : Bool) (execInput : JsVal)
    (gs tts : StageOutcome) (jenv : JoinEnv) (jc : Option (String × String)) :
    (wfUpdates (runWorkflow parse cfOk execInput gs tts jenv jc)).length ≤ 1 := by
  rcases runWorkflow_events_form parse cfOk execInput gs tts jenv jc with
    ⟨starts, rest, hev, hstarts, hforms⟩
  unfold wfUpdates
  rw [hev, List.filterMap_append]
  rw [List.filterMap_eq_nil_iff.mpr (by
    intro e he
    rcases hstarts e he with ⟨n, hn⟩
    subst hn
    rfl)]
  simp only [List.nil_append]
  rcases hforms with h | ⟨sid0, h⟩ | ⟨p, us, h, hlen, hus⟩
  · subst h; simp
  · subst h; simp
  · subst h
    simp only [List.filterMap_cons]
    calc (List.filterMap _ us).length ≤ us.length := List.length_filterMap_le _ _
      _ ≤ 1 := hlen

/-- Claim C6: a Session's status is monotonic - a workflow run performs at most one status write, so starting from REQUESTED the status trace never changes again once it reaches COMPLETED or FAILED. -/
theorem c6_theorem (parse : JsVal → Option JsVal) (cfOk : Bool) (execInput : JsVal)
    (gs tts : StageOutcome) (jenv : JoinEnv) (jc : Option (String × String)) :
    (wfUpdates (runWorkflow parse cfOk execInput gs tts jenv jc)).length ≤ 1 ∧
    StatusMonotone (statusTrace (runWorkflow parse cfOk execInput gs tts jenv jc)) := by
  refine ⟨wfUpdates_len parse cfOk execInput gs tts jenv jc, ?_⟩
  unfold statusTrace
  apply statusMonotone_of_short
  calc (List.map _ _).length = (wfUpdates _).length := List.length_map _ _
    _ ≤ 1 := wfUpdates_len parse cfOk execInput gs tts jenv jc

theorem take_mem_handler_after {pre : List WfEvent} {p : JsVal} {post : List WfEvent}
    (hpre : ∀ sid st, WfEvent.sessionUpdate sid st ∉ pre) :
    ∀ k sid, WfEvent.sessionUpdate sid .failed ∈ (pre ++ .handlerInvoked p :: post).take k →
      ∃ q, WfEvent.handlerInvoked q ∈ (pre ++ .handlerInvoked p :: post).take k := by
  intro k sid hmem
  rw [List.take_append_eq_append_take] at hmem ⊢
  rcases List.mem_append.mp hmem with h1 | h1
  · exact absurd (List.take_subset _ _ h1) (hpre sid .failed)
  · cases hk : k - pre.length with
    | zero =>
      rw [hk] at h1
      simp at h1
    | succ n =>
      have hmem2 : WfEvent.handlerInvoked p ∈
          List.take (n + 1) (WfEvent.handlerInvoked p :: post) := by
        rw [List.take_succ_cons]
        exact List.mem_cons_self _ _
      exact ⟨p, List.mem_append_right _ hmem2⟩

theorem wf_failed_needs_handler (parse : JsVal → Option JsVal) (cfOk : Bool) (execInput : JsVal)
    (gs tts : StageOutcome) (jenv : JoinEnv) (jc : Option (String × String)) :
    ∀ k sid,
      WfEvent.sessionUpdate sid .failed ∈
        ((runWorkflow parse cfOk execInput gs tts jenv jc).events.take k) →
      ∃ q, WfEvent.handlerInvoked q ∈
        ((runWorkflow parse cfOk execInput gs tts jenv jc).events.take k) := by
  rcases runWorkflow_events_form parse cfOk execInput gs tts jenv jc with
    ⟨starts, rest, hev, hstarts, hforms⟩
  rw [hev]
  have hpre : ∀ sid st, WfEvent.sessionUpdate sid st ∉ starts := by
    intro sid st hmem
    rcases hstarts _ hmem with ⟨n, hn⟩
    cases hn
  rcases hforms with h | ⟨sid0, h⟩ | ⟨p, us, h, hlen, hus⟩
  · subst h
    intro k sid hmem
    exfalso
    have := List.take_subset _ _ hmem
    rw [List.append_nil] at this
    exact hpre sid .failed this
  · subst h
    intro k sid hmem
    exfalso
    have := List.take_subset _ _ hmem
    rcases List.mem_append.mp this with h1 | h1
    · exact hpre sid .failed h1
    · simp only [List.mem_singleton] at h1
      cases h1
  · subst h
    exact take_mem_handler_after hpre

/-- Claim C8 (amended): an execution-level timeout halts the run where it is with a `States.Timeout` failure; it does not itself route through the shared failure handler, and any FAILED status write present in the truncated run can only have come from a failure-handler invocation that had already happened before the budget elapsed. -/
theorem c8_theorem (parse : JsVal → Option JsVal) (cfOk : Bool) (execInput : JsVal)
    (gs tts : StageOutcome) (jenv : JoinEnv) (jc : Option (String × String)) (k : Nat)
    (hk : k < (runWorkflow parse cfOk execInput gs tts jenv jc).events.length) :
    runWorkflowTimed k parse cfOk execInput gs tts jenv jc =
      ⟨(runWorkflow parse cfOk execInput gs tts jenv jc).events.take k, .timedOut⟩ ∧
    (∀ sid, WfEvent.sessionUpdate sid .failed ∈
        (runWorkflowTimed k parse cfOk execInput gs tts jenv jc).events →
      ∃ q, WfEvent.handlerInvoked q ∈
        (runWorkflowTimed k parse cfOk execInput gs tts jenv jc).events) := by
  have ht : runWorkflowTimed k parse cfOk execInput gs tts jenv jc =
      ⟨(runWorkflow parse cfOk execInput gs tts jenv jc).events.take k, .timedOut⟩ := by
    unfold runWorkflowTimed
    rw [if_pos hk]
  refine ⟨ht, ?_⟩
  rw [ht]
  intro sid hmem
  exact wf_failed_needs_handler parse cfOk execInput gs tts jenv jc k sid hmem

/-- Claim C8 (counterexample): the 15-minute execution-level timeout terminates a running execution with `States.Timeout` without routing through the failure handler: with the budget exhausted immediately, the timed run records no events at all - no handler invocation and no FAILED update - although the untimed run was live. -/
theorem c8_counterexample :
    runWorkflowTimed 0
        (fun _ => some (.obj [("sessionID", .str "s1"), ("userID", .str "u1"),
          ("speechAudioPath", .str "p")]))
        true (.obj [("userID", .str "u1"), ("sessionID", .str "s1")])
        (.ret 200 "a") (.ret 200 "b")
        ⟨true, true, true, 100, 0, true, true, true, true, true⟩ none =
      ⟨[], .timedOut⟩ ∧
    0 < (runWorkflow
        (fun _ => some (.obj [("sessionID", .str "s1"), ("userID", .str "u1"),
          ("speechAudioPath", .str "p")]))
        true (.obj [("userID", .str "u1"), ("sessionID", .str "s1")])
        (.ret 200 "a") (.ret 200 "b")
        ⟨true, true, true, 100, 0, true, true, true, true, true⟩ none).events.length := by
  constructor
  · rfl
  · decide

/-- Witness for the amended claim C8, with the timeout striking after one event. -/
theorem c8_witness :
    1 < (runWorkflow
        (fun _ => some (.obj [("sessionID", .str "s1"), ("userID", .str "u1"),
          ("speechAudioPath", .str "p")]))
        true (.obj [("userID", .str "u1"), ("sessionID", .str "s1")])
        (.ret 200 "a") (.ret 200 "b")
        ⟨true, true, true, 100, 0, true, true, true, true, true⟩ none).events.length ∧
    runWorkflowTimed 1
        (fun _ => some (.obj [("sessionID", .str "s1"), ("userID", .str "u1"),
          ("speechAudioPath", .str "p")]))
        true (.obj [("userID", .str "u1"), ("sessionID", .str "s1")])
        (.ret 200 "a") (.ret 200 "b")
        ⟨true, true, true, 100, 0, true, true, true, true, true⟩ none =
      ⟨(runWorkflow
        (fun _ => some (.obj [("sessionID", .str "s1"), ("userID", .str "u1"),
          ("speechAudioPath", .str "p")]))
        true (.obj [("userID", .str "u1"), ("sessionID", .str "s1")])
        (.ret 200 "a") (.ret 200 "b")
        ⟨true, true, true, 100, 0, true, true, true, true, true⟩ none).events.take 1,
       .timedOut⟩ := by
  have hk : 1 < (runWorkflow
      (fun _ => some (.obj [("sessionID", .str "s1"), ("userID", .str "u1"),
        ("speechAudioPath", .str "p")]))
      true (.obj [("userID", .str "u1"), ("sessionID", .str "s1")])
      (.ret 200 "a") (.ret 200 "b")
      ⟨true, true, true, 100, 0, true, true, true, true, true⟩ none).events.length := by decide
  exact ⟨hk, (c8_theorem _ _ _ _ _ _ _ 1 hk).1⟩
